import Mathlib

set_option maxHeartbeats 1000000

namespace SpotifyCli

/-! ## Shared error model (src/errors.ts)

`CliError` carries a code (one of the string literals of `CliErrorCode`), a
message, an optional hint, and opaque `details` of which the core only ever
reads `details.status` (in `isUnavailableEndpointError`); we model exactly
that projection as `detailsStatus`. -/

structure CliError where
  code : String
  message : String
  hint : Option String := none
  detailsStatus : Option ℚ := none
  deriving DecidableEq, Repr

/-! ## Embedding of src/playlist/apply.ts

Network calls are made observable: every function that performs remote calls
also returns the list of `ApiCall`s it issued, in order.  Responses come from
an `ApplyEnv`: `currentSnapshotField` is the `snapshot_id` field of the
`GET /playlists/{id}?fields=snapshot_id` response, and `writeResp i` is the
`snapshot_id` field of the `i`-th mutating (PUT/POST) call of a run. -/

inductive ApiCall where
  | getSnapshot (playlistId : String)
  | putItems (playlistId : String) (uris : List String)
  | postItems (playlistId : String) (uris : List String)
  deriving DecidableEq, Repr

structure ApplyEnv where
  currentSnapshotField : Option String
  writeResp : Nat → Option String

/-- JS truthiness of a `string | undefined` value: `undefined` and `""` are
falsy, every other string is truthy. -/
def optTruthy : Option String → Bool
  | none => false
  | some s => s ≠ ""

/-- `chunk` from apply.ts: split a list into consecutive slices of `size`
elements, the last possibly shorter.  The source loop `for (i = 0; i <
items.length; i += size)` advances by `size ≥ 1` each step, so a fuel of
`items.length` suffices; the TS loop would not terminate for `size = 0`
(never called that way), which we map to `[]`. -/
def chunkAux {α : Type} (s : Nat) : Nat → List α → List (List α)
  | _, [] => []
  | 0, _ :: _ => []
  | fuel + 1, x :: xs => ((x :: xs).take (s + 1)) :: chunkAux s (fuel + 1 - (s + 1)) ((x :: xs).drop (s + 1))

def chunk {α : Type} (items : List α) (size : Nat) : List (List α) :=
  match size with
  | 0 => []
  | s + 1 => chunkAux s items.length items

/-- `assertPlaylistSnapshotUnchanged` from apply.ts: skipped when
`expectedSnapshot` is falsy; otherwise one GET of the current snapshot field,
and an `INVALID_USAGE` error when the field is truthy and differs. -/
def assertPlaylistSnapshotUnchanged (env : ApplyEnv) (playlistId : String)
    (expectedSnapshot : Option String) : Except CliError Unit × List ApiCall :=
  if optTruthy expectedSnapshot = false then (Except.ok (), [])
  else
    let current := env.currentSnapshotField
    if optTruthy current = true ∧ current ≠ expectedSnapshot then
      (Except.error
        { code := "INVALID_USAGE"
          message := "Playlist was modified since preview was generated."
          hint := some "Re-run preview or pass --force to bypass snapshot guard." },
        [ApiCall.getSnapshot playlistId])
    else (Except.ok (), [ApiCall.getSnapshot playlistId])

/-- The `for (let i = 1; ...)` append loop of `replacePlaylistTracks`:
each remaining chunk is POSTed and `snapshot = added.snapshot_id ?? snapshot`. -/
def replaceLoop (env : ApplyEnv) (playlistId : String) :
    List (List String) → Nat → Option String → Option String × List ApiCall
  | [], _, snap => (snap, [])
  | p :: ps, i, snap =>
      let r := env.writeResp i
      let next := replaceLoop env playlistId ps (i + 1) (r.orElse fun _ => snap)
      (next.1, ApiCall.postItems playlistId p :: next.2)

/-- `replacePlaylistTracks` from apply.ts: chunk at 100; with no chunks a
single PUT of `[]`; otherwise PUT the first chunk and POST the rest. -/
def replacePlaylistTracks (env : ApplyEnv) (playlistId : String) (uris : List String) :
    Option String × List ApiCall :=
  match chunk uris 100 with
  | [] => (env.writeResp 0, [ApiCall.putItems playlistId []])
  | p :: rest =>
      let snap0 := env.writeResp 0
      let next := replaceLoop env playlistId rest 1 snap0
      (next.1, ApiCall.putItems playlistId p :: next.2)

structure PlaylistApplyResult where
  action : String
  playlist_id : String
  before_count : Nat
  after_count : Nat
  removed : Nat
  dropped_episodes : Nat
  changed : Bool
  applied : Bool
  snapshot_id : Option String := none
  deriving DecidableEq, Repr

/-- The `changed` computation of `applyPlaylistPlan`:
`beforeUris.length !== desiredUris.length || beforeUris.some((uri, idx) =>
uri !== desiredUris[idx])`, where out-of-range indexing yields `undefined`
(modelled by `Option`). -/
def changedCalc (before desired : List String) : Bool :=
  (before.length != desired.length) ||
    before.enum.any fun p => decide (some p.2 ≠ desired.get? p.1)

structure ApplyOpts where
  action : String
  playlistId : String
  beforeUris : List String
  desiredUris : List String
  droppedEpisodes : Nat
  apply : Bool
  force : Bool := false
  snapshotId : Option String := none

/-- The `preview` record built at the top of `applyPlaylistPlan`.
`removed = Math.max(0, before - after)` is natural subtraction. -/
def applyPreview (opts : ApplyOpts) : PlaylistApplyResult :=
  { action := opts.action
    playlist_id := opts.playlistId
    before_count := opts.beforeUris.length
    after_count := opts.desiredUris.length
    removed := opts.beforeUris.length - opts.desiredUris.length
    dropped_episodes := opts.droppedEpisodes
    changed := changedCalc opts.beforeUris opts.desiredUris
    applied := false }

/-- `applyPlaylistPlan` from apply.ts. -/
def applyPlaylistPlan (env : ApplyEnv) (opts : ApplyOpts) :
    Except CliError PlaylistApplyResult × List ApiCall :=
  let changed := changedCalc opts.beforeUris opts.desiredUris
  let preview : PlaylistApplyResult := applyPreview opts
  if opts.apply = false ∨ changed = false then (Except.ok preview, [])
  else
    let guard :=
      if opts.force = false then
        assertPlaylistSnapshotUnchanged env opts.playlistId opts.snapshotId
      else (Except.ok (), [])
    match guard with
    | (Except.error e, calls) => (Except.error e, calls)
    | (Except.ok _, calls) =>
        let rep := replacePlaylistTracks env opts.playlistId opts.desiredUris
        (Except.ok { preview with applied := true, snapshot_id := rep.1 }, calls ++ rep.2)

/-! ### Supporting lemmas about `chunk` and `replaceLoop` -/

lemma chunkAux_nil {α : Type} (s fuel : Nat) : chunkAux s fuel ([] : List α) = [] := by
  cases fuel <;> simp [chunkAux]

lemma chunkAux_flatten {α : Type} (s : Nat) :
    ∀ fuel (l : List α), l.length ≤ fuel → (chunkAux s fuel l).flatten = l := by
  intro fuel
  induction fuel using Nat.strong_induction_on with
  | _ fuel ih =>
    intro l hl
    cases l with
    | nil => rw [chunkAux_nil]; rfl
    | cons x xs =>
      cases fuel with
      | zero => simp at hl
      | succ f =>
        simp only [chunkAux, List.flatten_cons]
        have hd : ((x :: xs).drop (s + 1)).length ≤ f + 1 - (s + 1) := by
          simp only [List.length_drop, List.length_cons]
          simp only [List.length_cons] at hl
          omega
        rw [ih (f + 1 - (s + 1)) (by omega) _ hd, List.take_append_drop]

lemma chunk_flatten {α : Type} (l : List α) (s : Nat) : (chunk l (s + 1)).flatten = l :=
  chunkAux_flatten s l.length l (le_refl _)

lemma chunkAux_mem {α : Type} (s : Nat) :
    ∀ fuel (l : List α), ∀ p ∈ chunkAux s fuel l, p.length ≤ s + 1 ∧ p ≠ [] := by
  intro fuel
  induction fuel using Nat.strong_induction_on with
  | _ fuel ih =>
    intro l p hp
    cases l with
    | nil => rw [chunkAux_nil] at hp; exact absurd hp (List.not_mem_nil p)
    | cons x xs =>
      cases fuel with
      | zero => simp [chunkAux] at hp
      | succ f =>
        simp only [chunkAux, List.mem_cons] at hp
        rcases hp with hp | hp
        · subst hp
          refine ⟨by simp [List.length_take], ?_⟩
          rw [List.take_succ_cons]
          exact List.cons_ne_nil _ _
        · exact ih (f + 1 - (s + 1)) (by omega) _ p hp

lemma chunkAux_get_full {α : Type} (s : Nat) :
    ∀ fuel (l : List α) i, i + 1 < (chunkAux s fuel l).length →
      ∃ p, (chunkAux s fuel l).get? i = some p ∧ p.length = s + 1 := by
  intro fuel
  induction fuel using Nat.strong_induction_on with
  | _ fuel ih =>
    intro l i hi
    cases l with
    | nil => rw [chunkAux_nil] at hi ⊢; simp at hi
    | cons x xs =>
      cases fuel with
      | zero => simp [chunkAux] at hi
      | succ f =>
        simp only [chunkAux, List.length_cons] at hi ⊢
        cases i with
        | zero =>
          refine ⟨(x :: xs).take (s + 1), rfl, ?_⟩
          have hrest : chunkAux s (f + 1 - (s + 1)) ((x :: xs).drop (s + 1)) ≠ [] := by
            intro hnil
            rw [hnil] at hi
            simp at hi
          have hdrop : (x :: xs).drop (s + 1) ≠ [] := by
            intro hnil
            rw [hnil, chunkAux_nil] at hrest
            exact hrest rfl
          have hlen : s + 1 < xs.length + 1 := by
            by_contra hle
            apply hdrop
            apply List.drop_eq_nil_iff.mpr
            simp only [List.length_cons]
            omega
          simp only [List.length_take, List.length_cons]
          omega
        | succ j =>
          have hj : j + 1 < (chunkAux s (f + 1 - (s + 1)) ((x :: xs).drop (s + 1))).length := by
            omega
          have := ih (f + 1 - (s + 1)) (by omega) ((x :: xs).drop (s + 1)) j hj
          simpa using this

lemma replaceLoop_calls (env : ApplyEnv) (pid : String) :
    ∀ ps i snap, (replaceLoop env pid ps i snap).2 = ps.map (ApiCall.postItems pid) := by
  intro ps
  induction ps with
  | nil => intro i snap; rfl
  | cons p ps ih => intro i snap; simp [replaceLoop, ih]

lemma replaceLoop_snap (env : ApplyEnv) (pid : String)
    (h : ∀ i, (env.writeResp i).isSome = true) :
    ∀ ps i snap, ps ≠ [] →
      (replaceLoop env pid ps i snap).1 = env.writeResp (i + ps.length - 1) := by
  intro ps
  induction ps with
  | nil => intro i snap hne; exact absurd rfl hne
  | cons p ps ih =>
    intro i snap _
    cases ps with
    | nil =>
      obtain ⟨v, hv⟩ := Option.isSome_iff_exists.mp (h i)
      simp [replaceLoop, hv, Option.orElse]
    | cons q qs =>
      have hrec := ih (i + 1) ((env.writeResp i).orElse fun _ => snap) (by simp)
      have hstep : (replaceLoop env pid (p :: q :: qs) i snap).1
          = (replaceLoop env pid (q :: qs) (i + 1)
              ((env.writeResp i).orElse fun _ => snap)).1 := rfl
      rw [hstep, hrec]
      congr 1
      simp only [List.length_cons]
      omega

lemma changedCalc_eq_false (b d : List String) : changedCalc b d = false ↔ b = d := by
  unfold changedCalc
  rw [Bool.or_eq_false_iff]
  constructor
  · rintro ⟨h1, h2⟩
    have hlen : b.length = d.length := bne_eq_false_iff_eq.mp h1
    rw [List.ext_get?_iff]
    intro n
    by_cases hn : n < b.length
    · have hb : b.get? n = some (b.get ⟨n, hn⟩) := List.get?_eq_get hn
      have hmem : (n, b.get ⟨n, hn⟩) ∈ b.enum := List.mk_mem_enum_iff_get?.mpr hb
      have hall := List.any_eq_false.mp h2 _ hmem
      rw [decide_eq_true_iff] at hall
      push_neg at hall
      rw [hb]
      exact hall
    · rw [List.get?_eq_none.mpr (by omega), List.get?_eq_none.mpr (by omega)]
  · rintro rfl
    refine ⟨bne_eq_false_iff_eq.mpr rfl, ?_⟩
    rw [List.any_eq_false]
    intro p hp
    have := List.mem_enum_iff_get?.mp hp
    simp only [decide_eq_true_iff]
    intro hne
    exact hne this.symm

lemma changedCalc_eq_true (b d : List String) : changedCalc b d = true ↔ b ≠ d := by
  constructor
  · intro h hbd
    rw [(changedCalc_eq_false b d).mpr hbd] at h
    exact Bool.false_ne_true h
  · intro h
    cases hc : changedCalc b d with
    | false => exact absurd ((changedCalc_eq_false b d).mp hc) h
    | true => rfl

/-! ### Claim theorems for the guarded apply protocol -/

/-- C2: `applyPlaylistPlan` reports `changed = true` iff the before/desired
URI sequences differ in length or at some position (i.e. iff they are not
equal as sequences); and whenever `apply = false` or `changed = false` it
returns immediately with `applied = false` and issues no remote call (the
emitted call trace is empty). -/
theorem claim_C2_changed_and_preview (env : ApplyEnv) (opts : ApplyOpts) :
    (changedCalc opts.beforeUris opts.desiredUris = true ↔
        opts.beforeUris ≠ opts.desiredUris)
    ∧ ((opts.apply = false ∨ changedCalc opts.beforeUris opts.desiredUris = false) →
        (applyPlaylistPlan env opts).2 = []
        ∧ ∃ r, (applyPlaylistPlan env opts).1 = Except.ok r
            ∧ r.applied = false
            ∧ r.changed = changedCalc opts.beforeUris opts.desiredUris) := by
  refine ⟨changedCalc_eq_true _ _, ?_⟩
  intro h
  have heq : applyPlaylistPlan env opts = (Except.ok (applyPreview opts), []) := by
    simp only [applyPlaylistPlan]
    rw [if_pos h]
  rw [heq]
  exact ⟨rfl, applyPreview opts, rfl, rfl, rfl⟩

/-- Witness for C2 at a concrete input: a preview call (`apply = false`)
with differing URI lists makes no remote call. -/
theorem claim_C2_witness :
    (applyPlaylistPlan ⟨some "snap", fun _ => some "s"⟩
        { action := "shuffle", playlistId := "p", beforeUris := ["a"],
          desiredUris := ["b"], droppedEpisodes := 0, apply := false }).2 = [] :=
  ((claim_C2_changed_and_preview ⟨some "snap", fun _ => some "s"⟩
      { action := "shuffle", playlistId := "p", beforeUris := ["a"],
        desiredUris := ["b"], droppedEpisodes := 0, apply := false }).2
    (Or.inl rfl)).1

lemma replacePlaylistTracks_calls (env : ApplyEnv) (pid : String) (uris : List String) :
    (replacePlaylistTracks env pid uris).2
      = ApiCall.putItems pid ((chunk uris 100).headD [])
          :: ((chunk uris 100).tail.map (ApiCall.postItems pid)) := by
  unfold replacePlaylistTracks
  cases hch : chunk uris 100 with
  | nil => simp
  | cons p rest => simp [replaceLoop_calls]

lemma replacePlaylistTracks_snap (env : ApplyEnv) (pid : String) (uris : List String)
    (h : ∀ i, (env.writeResp i).isSome = true) :
    (replacePlaylistTracks env pid uris).1
      = env.writeResp ((chunk uris 100).length - 1) := by
  unfold replacePlaylistTracks
  cases hch : chunk uris 100 with
  | nil => simp
  | cons p rest =>
    cases rest with
    | nil => simp [replaceLoop]
    | cons q qs =>
      simp only
      rw [replaceLoop_snap env pid h _ 1 _ (by simp)]
      congr 1
      simp only [List.length_cons]
      omega

lemma applyPlaylistPlan_committed (env : ApplyEnv) (opts : ApplyOpts)
    (ha : opts.apply = true)
    (hc : changedCalc opts.beforeUris opts.desiredUris = true)
    (hguard : opts.force = true ∨
      (assertPlaylistSnapshotUnchanged env opts.playlistId opts.snapshotId).1 = Except.ok ()) :
    ∃ gcalls,
      applyPlaylistPlan env opts
        = (Except.ok { applyPreview opts with
              applied := true
              snapshot_id := (replacePlaylistTracks env opts.playlistId opts.desiredUris).1 },
           gcalls ++ (replacePlaylistTracks env opts.playlistId opts.desiredUris).2) := by
  have hnot : ¬ (opts.apply = false ∨ changedCalc opts.beforeUris opts.desiredUris = false) := by
    rintro (h | h)
    · rw [ha] at h; exact Bool.noConfusion h
    · rw [hc] at h; exact Bool.noConfusion h
  have hok : ∃ g,
      (if opts.force = false then
        assertPlaylistSnapshotUnchanged env opts.playlistId opts.snapshotId
      else (Except.ok (), [])) = (Except.ok (), g) := by
    by_cases hforce : opts.force = false
    · rcases hguard with hg | hg
      · rw [hg] at hforce; exact Bool.noConfusion hforce
      · refine ⟨(assertPlaylistSnapshotUnchanged env opts.playlistId opts.snapshotId).2, ?_⟩
        rw [if_pos hforce, ← hg]
    · exact ⟨[], by rw [if_neg hforce]⟩
  obtain ⟨g, hg⟩ := hok
  refine ⟨g, ?_⟩
  simp only [applyPlaylistPlan]
  rw [if_neg hnot, hg]

/-! ### Claim theorems C1, C3, C10 -/

/-- C1: with `apply = true`, a changed plan, `force = false`, a (truthy)
expected snapshot and a (truthy) mismatching current remote snapshot token,
`applyPlaylistPlan` re-fetches the snapshot token (the single `getSnapshot`
call in the trace), aborts with a usage-class error, and issues no mutating
(PUT/POST) call, so the remote playlist state is untouched on this path. -/
theorem claim_C1_snapshot_guard (env : ApplyEnv) (opts : ApplyOpts) (e s : String)
    (ha : opts.apply = true) (hf : opts.force = false)
    (hc : changedCalc opts.beforeUris opts.desiredUris = true)
    (hexp : opts.snapshotId = some e) (hexp' : e ≠ "")
    (hcur : env.currentSnapshotField = some s) (hcur' : s ≠ "") (hne : s ≠ e) :
    (applyPlaylistPlan env opts).1
      = Except.error
          { code := "INVALID_USAGE"
            message := "Playlist was modified since preview was generated."
            hint := some "Re-run preview or pass --force to bypass snapshot guard." }
    ∧ (applyPlaylistPlan env opts).2 = [ApiCall.getSnapshot opts.playlistId] := by
  have herr : assertPlaylistSnapshotUnchanged env opts.playlistId opts.snapshotId
      = (Except.error
          { code := "INVALID_USAGE"
            message := "Playlist was modified since preview was generated."
            hint := some "Re-run preview or pass --force to bypass snapshot guard." },
         [ApiCall.getSnapshot opts.playlistId]) := by
    simp only [assertPlaylistSnapshotUnchanged, hexp, hcur]
    rw [if_neg (by simp [optTruthy, hexp']), if_pos ⟨by simp [optTruthy, hcur'], by simp [hne]⟩]
  have hnot : ¬ (opts.apply = false ∨ changedCalc opts.beforeUris opts.desiredUris = false) := by
    rintro (h | h)
    · rw [ha] at h; exact Bool.noConfusion h
    · rw [hc] at h; exact Bool.noConfusion h
  have hmain : applyPlaylistPlan env opts
      = (Except.error
          { code := "INVALID_USAGE"
            message := "Playlist was modified since preview was generated."
            hint := some "Re-run preview or pass --force to bypass snapshot guard." },
         [ApiCall.getSnapshot opts.playlistId]) := by
    simp only [applyPlaylistPlan]
    rw [if_neg hnot, if_pos hf, herr]
  exact ⟨by rw [hmain], by rw [hmain]⟩

/-- Witness for C1 at a concrete input: a mismatching remote snapshot aborts
after exactly one read call and zero write calls. -/
theorem claim_C1_witness :
    (applyPlaylistPlan ⟨some "s2", fun _ => some "w"⟩
        { action := "shuffle", playlistId := "p", beforeUris := ["a"],
          desiredUris := ["b"], droppedEpisodes := 0, apply := true,
          force := false, snapshotId := some "s1" }).2
      = [ApiCall.getSnapshot "p"] :=
  (claim_C1_snapshot_guard ⟨some "s2", fun _ => some "w"⟩
      { action := "shuffle", playlistId := "p", beforeUris := ["a"],
        desiredUris := ["b"], droppedEpisodes := 0, apply := true,
        force := false, snapshotId := some "s1" } "s1" "s2"
      rfl rfl (by decide) rfl (by decide) rfl (by decide) (by decide)).2

/-- C10: with `apply = true`, a changed plan and `force = false`, if the
supplied `snapshotId` is absent, or the re-fetched response carries no
`snapshot_id`, the guard passes vacuously and the remote replace proceeds:
the plan is applied (first-chunk PUT present in the trace) instead of
aborting. -/
theorem claim_C10_vacuous_guard (env : ApplyEnv) (opts : ApplyOpts)
    (ha : opts.apply = true) (hf : opts.force = false)
    (hc : changedCalc opts.beforeUris opts.desiredUris = true)
    (hmiss : opts.snapshotId = none ∨ env.currentSnapshotField = none) :
    ∃ r, (applyPlaylistPlan env opts).1 = Except.ok r
      ∧ r.applied = true
      ∧ ApiCall.putItems opts.playlistId ((chunk opts.desiredUris 100).headD [])
          ∈ (applyPlaylistPlan env opts).2 := by
  have hok : (assertPlaylistSnapshotUnchanged env opts.playlistId opts.snapshotId).1
      = Except.ok () := by
    rcases hmiss with h | h
    · simp [assertPlaylistSnapshotUnchanged, h, optTruthy]
    · simp only [assertPlaylistSnapshotUnchanged]
      by_cases hT : optTruthy opts.snapshotId = false
      · rw [if_pos hT]
      · rw [if_neg hT, if_neg (by simp [h, optTruthy])]
  obtain ⟨g, hmain⟩ := applyPlaylistPlan_committed env opts ha hc (Or.inr hok)
  refine ⟨_, by rw [hmain], rfl, ?_⟩
  rw [hmain]
  apply List.mem_append_right
  rw [replacePlaylistTracks_calls]
  exact List.mem_cons_self _ _

/-- Witness for C10 at a concrete input: an absent expected snapshot lets the
apply proceed with `applied = true`. -/
theorem claim_C10_witness :
    ∃ r, (applyPlaylistPlan ⟨some "s2", fun _ => some "w"⟩
        { action := "shuffle", playlistId := "p", beforeUris := ["a"],
          desiredUris := ["b"], droppedEpisodes := 0, apply := true,
          force := false, snapshotId := none }).1 = Except.ok r
      ∧ r.applied = true
      ∧ ApiCall.putItems "p" ((chunk ["b"] 100).headD [])
          ∈ (applyPlaylistPlan ⟨some "s2", fun _ => some "w"⟩
        { action := "shuffle", playlistId := "p", beforeUris := ["a"],
          desiredUris := ["b"], droppedEpisodes := 0, apply := true,
          force := false, snapshotId := none }).2 :=
  claim_C10_vacuous_guard ⟨some "s2", fun _ => some "w"⟩
    { action := "shuffle", playlistId := "p", beforeUris := ["a"],
      desiredUris := ["b"], droppedEpisodes := 0, apply := true,
      force := false, snapshotId := none }
    rfl rfl (by decide) (Or.inl rfl)

/-- C3: once the guard passes or is bypassed, the desired list is written in
the consecutive chunks `chunk uris 100` (they concatenate back to the list,
every chunk has at most 100 elements, every chunk but the last exactly 100),
the first chunk with the PUT (replace) call and each later chunk with a POST
(append) call, and — when every chunk call returns a snapshot token — the
reported snapshot is the one of the last chunk call, which is also the
`snapshot_id` of the `ApplyResult` returned by `applyPlaylistPlan`. -/
theorem claim_C3_chunked_write (env : ApplyEnv) (pid : String) (uris : List String)
    (hresp : ∀ i, (env.writeResp i).isSome = true) :
    (chunk uris 100).flatten = uris
    ∧ (∀ p ∈ chunk uris 100, p.length ≤ 100 ∧ p ≠ [])
    ∧ (∀ i, i + 1 < (chunk uris 100).length →
        ∃ p, (chunk uris 100).get? i = some p ∧ p.length = 100)
    ∧ (replacePlaylistTracks env pid uris).2
        = ApiCall.putItems pid ((chunk uris 100).headD [])
            :: ((chunk uris 100).tail.map (ApiCall.postItems pid))
    ∧ (replacePlaylistTracks env pid uris).1 = env.writeResp ((chunk uris 100).length - 1)
    ∧ (∀ opts : ApplyOpts, opts.playlistId = pid → opts.desiredUris = uris →
        opts.apply = true →
        (opts.force = true ∨
          (assertPlaylistSnapshotUnchanged env pid opts.snapshotId).1 = Except.ok ()) →
        changedCalc opts.beforeUris uris = true →
        ∃ r, (applyPlaylistPlan env opts).1 = Except.ok r
          ∧ r.applied = true
          ∧ r.snapshot_id = env.writeResp ((chunk uris 100).length - 1)) := by
  refine ⟨chunk_flatten uris 99, ?_, ?_, replacePlaylistTracks_calls env pid uris,
    replacePlaylistTracks_snap env pid uris hresp, ?_⟩
  · intro p hp
    exact chunkAux_mem 99 uris.length uris p hp
  · intro i hi
    exact chunkAux_get_full 99 uris.length uris i hi
  · intro opts hpid huris ha hguard hc
    obtain ⟨g, hmain⟩ := applyPlaylistPlan_committed env opts ha (huris ▸ hc)
      (by rw [hpid]; exact hguard)
    refine ⟨_, by rw [hmain], rfl, ?_⟩
    simp only [hpid, huris]
    exact replacePlaylistTracks_snap env pid uris hresp

/-- Witness for C3 at a concrete input. -/
theorem claim_C3_witness : (chunk ["a", "b"] 100).flatten = ["a", "b"] :=
  (claim_C3_chunked_write ⟨none, fun _ => some "s"⟩ "p" ["a", "b"] (fun _ => rfl)).1

/-! ## Embedding of src/playlist/transform.ts

The transform planners are pure functions on normalized playlist items.
`artists` and `raw` are never read by any embedded function and are
omitted from the record; JS numbers are modelled as `ℚ`. -/

inductive PlaylistItemKind where
  | track
  | episode
  | unknown
  deriving DecidableEq, Repr

structure PlaylistItemNormalized where
  index : ℚ := 0
  uri : Option String := none
  id : Option String := none
  kind : PlaylistItemKind
  name : Option String := none
  added_at : Option String := none
  popularity : Option ℚ := none
  is_local : Bool := false
  is_playable : Option Bool := none
  available_markets : Option (List String) := none
  deriving DecidableEq, Repr

structure TrackFilterResult where
  uris : List String
  droppedEpisodes : Nat
  droppedUnknown : Nat
  deriving DecidableEq, Repr

/-- `toTrackOnly` from transform.ts: episodes are counted and dropped, items
that are not tracks or have a falsy (`undefined`/empty) `uri` are counted as
unknown and dropped, everything else contributes its URI in order. -/
def toTrackOnly : List PlaylistItemNormalized → TrackFilterResult
  | [] => { uris := [], droppedEpisodes := 0, droppedUnknown := 0 }
  | item :: rest =>
    let r := toTrackOnly rest
    if item.kind = PlaylistItemKind.episode then
      { r with droppedEpisodes := r.droppedEpisodes + 1 }
    else if item.kind ≠ PlaylistItemKind.track ∨ item.uri.getD "" = "" then
      { r with droppedUnknown := r.droppedUnknown + 1 }
    else
      { r with uris := item.uri.getD "" :: r.uris }

/-- ToUint32: the 32-bit pattern of an exact JS integer. -/
def toU32 (n : Int) : Nat := (n % 4294967296).toNat

/-- One call of the closure produced by `makeRandom(seed)` (a mulberry32
variant): `x += 0x6D2B79F5` followed by a xorshift/imul mix and division by
2^32.  JS bitwise operators coerce operands to 32 bits, and both `+` and
`Math.imul` commute with taking the bit pattern mod 2^32, so the state and
all intermediates are tracked as 32-bit patterns. -/
def mulberryStep (x : Nat) : ℚ × Nat :=
  let x1 := (x + 0x6D2B79F5) % 4294967296
  let t1 := ((x1 ^^^ (x1 >>> 15)) * (x1 ||| 1)) % 4294967296
  let m := ((t1 ^^^ (t1 >>> 7)) * (t1 ||| 61)) % 4294967296
  let t2 := t1 ^^^ ((t1 + m) % 4294967296)
  let out := t2 ^^^ (t2 >>> 14)
  ((out : ℚ) / 4294967296, x1)

/-- A source of randomness: either the deterministic seeded generator, or the
ambient non-deterministic `Math.random` modelled as an entropy stream with a
cursor. -/
inductive RandSrc where
  | seeded (x : Nat)
  | external (stream : Nat → ℚ) (idx : Nat)

def nextRand : RandSrc → ℚ × RandSrc
  | RandSrc.seeded x =>
      let r := mulberryStep x
      (r.1, RandSrc.seeded r.2)
  | RandSrc.external f i => (f i, RandSrc.external f (i + 1))

/-- `makeRandom` from transform.ts: `seed === undefined` falls back to
`Math.random` (the entropy stream); otherwise the mulberry32 generator is
seeded with `seed | 0`. -/
def makeRandom (seed : Option Int) (stream : Nat → ℚ) : RandSrc :=
  match seed with
  | some s => RandSrc.seeded (toU32 s)
  | none => RandSrc.external stream 0

/-- The destructuring swap `[items[i], items[j]] = [items[j], items[i]]`. -/
def listSwap (l : List String) (i j : Nat) : List String :=
  let vi := l.getD i ""
  let vj := l.getD j ""
  (l.set i vj).set j vi

/-- `shuffleInPlace` from transform.ts: Fisher–Yates with `i` running from
`length - 1` down to `1` and `j = Math.floor(random() * (i + 1))`.  The
first argument of `shuffleGo` is the current index `i`. -/
def shuffleGo : Nat → List String → RandSrc → List String × RandSrc
  | 0, arr, r => (arr, r)
  | i + 1, arr, r =>
      let q := nextRand r
      let j := (Rat.floor (q.1 * ((i + 2 : Nat) : ℚ))).toNat
      shuffleGo i (listSwap arr (i + 1) j) q.2

def shuffleInPlace (arr : List String) (r : RandSrc) : List String × RandSrc :=
  shuffleGo (arr.length - 1) arr r

/-- `chunkBySize` from transform.ts; its body is identical to `chunk` in
apply.ts. -/
def chunkBySize {α : Type} (items : List α) (size : Nat) : List (List α) :=
  chunk items size

/-- The indexed loop of `chunkByCount`: each of the `count` iterations takes
`base` elements plus one while remainder lasts (`remainder = Math.max(0,
remainder - 1)` is natural subtraction); empty slices are skipped. -/
def chunkByCountAux {α : Type} (items : List α) (base : Nat) :
    Nat → Nat → Nat → List (List α)
  | 0, _, _ => []
  | n + 1, rem, cursor =>
      let size := base + (if 0 < rem then 1 else 0)
      if size = 0 then chunkByCountAux items base n (rem - 1) cursor
      else ((items.drop cursor).take size) :: chunkByCountAux items base n (rem - 1) (cursor + size)

/-- `chunkByCount` from transform.ts. -/
def chunkByCount {α : Type} (items : List α) (count : Int) : List (List α) :=
  if count ≤ 1 then [items]
  else
    let c := count.toNat
    let out := chunkByCountAux items (items.length / c) c (items.length % c) 0
    if 0 < out.length then out else [items]

structure PlanResult where
  uris : List String
  droppedEpisodes : Nat
  deriving DecidableEq, Repr

/-- The `chunks.flatMap((chunk) => shuffleInPlace([...chunk], random))`
pattern: chunks are shuffled left to right, threading the single shared
random generator. -/
def shuffleChunks : List (List String) → RandSrc → List String × RandSrc
  | [], r => ([], r)
  | c :: cs, r =>
      let a := shuffleInPlace c r
      let b := shuffleChunks cs a.2
      (a.1 ++ b.1, b.2)

structure ShuffleOpts where
  groupSize : Option Int := none
  groups : Option Int := none
  seed : Option Int := none

/-- `planShuffle` from transform.ts.  The guards `opts?.groupSize &&
opts.groupSize > 0` (and likewise for `groups`) are JS-truthiness checks:
`undefined` and `0` are falsy, so both collapse to `getD 0 > 0`. -/
def planShuffle (items : List PlaylistItemNormalized) (opts : ShuffleOpts)
    (stream : Nat → ℚ) : PlanResult :=
  let filtered := toTrackOnly items
  let random := makeRandom opts.seed stream
  if filtered.uris.length ≤ 1 then
    { uris := filtered.uris, droppedEpisodes := filtered.droppedEpisodes }
  else if 0 < opts.groupSize.getD 0 then
    { uris := (shuffleChunks (chunkBySize filtered.uris (opts.groupSize.getD 0).toNat) random).1
      droppedEpisodes := filtered.droppedEpisodes }
  else if 0 < opts.groups.getD 0 then
    { uris := (shuffleChunks (chunkByCount filtered.uris (opts.groups.getD 0)) random).1
      droppedEpisodes := filtered.droppedEpisodes }
  else
    { uris := (shuffleInPlace filtered.uris random).1
      droppedEpisodes := filtered.droppedEpisodes }

/-- Modelled from the spec: `planReverse` is declared in `transform.ts` but
its definition is not among the provided sources — it is only imported by
`manage-mutations.ts` and exercised by the unit tests.  Per §4.1 of the
specification, Reverse "reverses the track URI order", separating tracks
from episode/unknown items exactly like every other planner. -/
def planReverse (items : List PlaylistItemNormalized) : PlanResult :=
  let filtered := toTrackOnly items
  { uris := filtered.uris.reverse, droppedEpisodes := filtered.droppedEpisodes }

/-- A plain track item wrapping a URI (the shape the unit tests build). -/
def mkTrackItem (uri : String) : PlaylistItemNormalized :=
  { kind := PlaylistItemKind.track, uri := some uri }

lemma toTrackOnly_uris_ne_empty :
    ∀ items, ∀ u ∈ (toTrackOnly items).uris, u ≠ "" := by
  intro items
  induction items with
  | nil => intro u hu; simp [toTrackOnly] at hu
  | cons item rest ih =>
    intro u hu
    simp only [toTrackOnly] at hu
    by_cases h1 : item.kind = PlaylistItemKind.episode
    · rw [if_pos h1] at hu; exact ih u hu
    · rw [if_neg h1] at hu
      by_cases h2 : item.kind ≠ PlaylistItemKind.track ∨ item.uri.getD "" = ""
      · rw [if_pos h2] at hu; exact ih u hu
      · rw [if_neg h2] at hu
        push_neg at h2
        simp only [List.mem_cons] at hu
        rcases hu with hu | hu
        · rw [hu]; exact h2.2
        · exact ih u hu

lemma toTrackOnly_map_mkTrack :
    ∀ us : List String, (∀ u ∈ us, u ≠ "") →
      toTrackOnly (us.map mkTrackItem)
        = { uris := us, droppedEpisodes := 0, droppedUnknown := 0 } := by
  intro us
  induction us with
  | nil => intro _; rfl
  | cons u us ih =>
    intro h
    have hu : u ≠ "" := h u (List.mem_cons_self u us)
    simp only [List.map_cons, toTrackOnly]
    rw [ih (fun v hv => h v (List.mem_cons_of_mem u hv))]
    rw [if_neg (by simp [mkTrackItem]), if_neg (by simp [mkTrackItem, hu])]
    simp [mkTrackItem]

/-! ### Claim theorems C8 and C9 -/

/-- C8: with a provided integer seed, the shuffle planner is a function of
`(items, seed)` alone — the ambient entropy stream that models the
non-deterministic `Math.random` has no influence on the output, so two calls
with the same items and seed produce identical URI sequences. -/
theorem claim_C8_shuffle_deterministic (items : List PlaylistItemNormalized)
    (gs g : Option Int) (seed : Int) (stream1 stream2 : Nat → ℚ) :
    planShuffle items { groupSize := gs, groups := g, seed := some seed } stream1
      = planShuffle items { groupSize := gs, groups := g, seed := some seed } stream2 := rfl

/-- C9: applying the reverse planner twice (re-wrapping its URI output as
track items, as the planner consumes items) restores the original track-URI
sequence; reverse of the empty playlist is empty; reverse of a single track
item is that same single URI. -/
theorem claim_C9_reverse_involutive (items : List PlaylistItemNormalized) :
    (planReverse ((planReverse items).uris.map mkTrackItem)).uris = (toTrackOnly items).uris
    ∧ (planReverse []).uris = []
    ∧ (∀ u : String, u ≠ "" → (planReverse [mkTrackItem u]).uris = [u]) := by
  refine ⟨?_, rfl, ?_⟩
  · have hne : ∀ u ∈ (toTrackOnly items).uris.reverse, u ≠ "" := by
      intro u hu
      exact toTrackOnly_uris_ne_empty items u (List.mem_reverse.mp hu)
    simp only [planReverse]
    rw [toTrackOnly_map_mkTrack _ hne]
    exact List.reverse_reverse _
  · intro u hu
    have h1 : toTrackOnly [mkTrackItem u]
        = { uris := [u], droppedEpisodes := 0, droppedUnknown := 0 } :=
      toTrackOnly_map_mkTrack [u] (by simpa using hu)
    simp [planReverse, h1]

/-- Witness for C9 at a concrete input. -/
theorem claim_C9_witness :
    (planReverse [mkTrackItem "spotify:track:1"]).uris = ["spotify:track:1"] :=
  (claim_C9_reverse_involutive []).2.2 "spotify:track:1" (by decide)

/-! ## Embedding of src/playlist/generate.ts (generateTrackPool)

The recommendation fetcher, the seed-profile resolver and the audio-features
endpoint are injected collaborators; a `GenEnv` fixes their behaviour:
`fetch r` is the response to the round-`r` recommendation request,
`seedFeatures` the outcome of the seed audio-features lookup, and
`featuresAt r` the outcome of an audio-features lookup performed during round
`r`.  JS numbers are `ℚ`; a value that `toNumberOrUndefined` maps to
`undefined` (absent, non-number or non-finite) is `none`.  As in the apply
embedding the loop state additionally records, in `reqTrace`, the seed list
of every recommendation request issued, so theorems can talk about requests. -/

def uniqueOrderedAux (seen : List String) : List String → List String
  | [] => []
  | x :: xs =>
      if x ∈ seen then uniqueOrderedAux seen xs
      else x :: uniqueOrderedAux (x :: seen) xs

/-- `uniqueOrdered` from generate.ts: keep the first occurrence of each
element, preserving order. -/
def uniqueOrdered (items : List String) : List String :=
  uniqueOrderedAux [] items

structure RecommendationTrack where
  uri : String
  id : String := ""
  name : Option String := none
  popularity : Option ℚ := none
  duration_ms : Option ℚ := none
  is_playable : Option Bool := none
  available_markets : Option (List String) := none
  deriving DecidableEq, Repr

structure FetchOpts where
  seedTrackUris : List String
  limit : Nat
  market : Option String
  timeoutMs : ℚ
  account : Option String
  minPopularity : ℚ
  maxDurationMs : ℚ
  seedProfileQuery : Option (List (String × ℚ))
  deriving DecidableEq, Repr

structure FetchResponse where
  tracks : Option (List RecommendationTrack) := none
  uris : Option (List String) := none
  warnings : Option (List String) := none
  deriving DecidableEq, Repr

structure SeedProfileResult where
  used : Bool
  query : List (String × ℚ)
  warnings : List String
  deriving DecidableEq, Repr

structure GenEnv where
  resolveSeedProfile : SeedProfileResult
  seedFeatures : Except CliError (String → Option ℚ)
  featuresAt : Nat → Except CliError (String → Option ℚ)
  fetch : Nat → FetchOpts → FetchResponse

/-- `isUnavailableEndpointError` from generate.ts: a `CliError` with code
`SPOTIFY_API` whose `details.status` is 403 or 404 (every error of this
embedding is a `CliError`, so the `name === "CliError"` check always holds). -/
def isUnavailableEndpointError (e : CliError) : Bool :=
  e.code == "SPOTIFY_API" && (e.detailsStatus == some 403 || e.detailsStatus == some 404)

structure GenerateOpts where
  seedTrackUris : List String
  targetSize : ℚ
  market : Option String := none
  minPopularity : ℚ
  maxDurationMs : ℚ
  excludeTrackUris : Option (List String) := none
  seedProfileEnabled : Option Bool := none
  diversifyKeys : Option Bool := none
  maxKeySharePercent : Option ℚ := none
  timeoutMs : ℚ := 0
  account : Option String := none
  maxRounds : Option Nat := none
  stagnationLimit : Option Nat := none

/-- The fail-fast parameter validation at the top of `generateTrackPool`,
in source order.  `Number.isInteger q` is `q.den = 1` on `ℚ`. -/
def validateGenerate (o : GenerateOpts) : Option CliError :=
  if o.targetSize.den ≠ 1 ∨ o.targetSize < 1 ∨ 100 < o.targetSize then
    some { code := "INVALID_USAGE"
           message := "--target-size must be an integer between 1 and 100." }
  else if o.minPopularity.den ≠ 1 ∨ o.minPopularity < 0 ∨ 100 < o.minPopularity then
    some { code := "INVALID_USAGE"
           message := "--min-popularity must be an integer between 0 and 100." }
  else if o.maxDurationMs.den ≠ 1 ∨ o.maxDurationMs ≤ 0 then
    some { code := "INVALID_USAGE"
           message := "--max-duration-ms must be a positive integer." }
  else if (o.maxKeySharePercent.getD 25).den ≠ 1 ∨ o.maxKeySharePercent.getD 25 < 1
      ∨ 100 < o.maxKeySharePercent.getD 25 then
    some { code := "INVALID_USAGE"
           message := "--max-key-share must be an integer between 1 and 100." }
  else if o.seedTrackUris.length < 3 ∨ 5 < o.seedTrackUris.length then
    some { code := "INVALID_USAGE"
           message := "Provide 3 to 5 seed tracks." }
  else if (uniqueOrdered o.seedTrackUris).length < 3 then
    some { code := "INVALID_USAGE"
           message := "Provide at least 3 unique seed tracks." }
  else none

/-- Lookup in a `Map<string, number>` modelled as an association list. -/
def smGet (m : List (String × ℚ)) (k : String) : Option ℚ :=
  (m.find? fun p => p.1 == k).map Prod.snd

/-- Extensional model of `Map.set`; entries are only ever read via `smGet`. -/
def smSet (m : List (String × ℚ)) (k : String) (v : ℚ) : List (String × ℚ) :=
  (k, v) :: m.filter fun p => p.1 != k

/-- Lookup in the per-key counter map (`String(key)` is injective on JS
numbers, so the map is keyed by the number itself). -/
def qmGet (m : List (ℚ × Nat)) (k : ℚ) : Option Nat :=
  (m.find? fun p => p.1 == k).map Prod.snd

def qmSet (m : List (ℚ × Nat)) (k : ℚ) (v : Nat) : List (ℚ × Nat) :=
  (k, v) :: m.filter fun p => p.1 != k

structure SourceFilterStats where
  dropped_noname : Nat := 0
  dropped_excluded : Nat := 0
  dropped_unplayable : Nat := 0
  dropped_market : Nat := 0
  dropped_popularity : Nat := 0
  dropped_duration : Nat := 0
  deriving DecidableEq, Repr

structure KeyDiversityStats where
  enabled : Bool
  dropped_by_key : Nat := 0
  key_cap : Nat
  disabled_by_api : Bool := false
  deriving DecidableEq, Repr

structure SeedProfileStats where
  enabled : Bool
  used : Bool := false
  deriving DecidableEq, Repr

structure FilterStats where
  source_filter : SourceFilterStats
  key_diversity : KeyDiversityStats
  seed_profile : SeedProfileStats
  stagnation_by_filters : Nat := 0
  deriving DecidableEq, Repr

structure GenerateResult where
  seedCount : Nat
  generatedCount : Nat
  shortfall : Nat
  trackUris : List String
  warnings : List String
  filteredCount : Nat
  filterStats : FilterStats
  deriving DecidableEq, Repr

/-- JS `String.prototype.trim`, as a kernel-computable character-list
operation (the built-in `String.trim` works on byte positions and does not
reduce in the kernel). -/
def jsTrim (s : String) : String :=
  String.mk (((s.data.dropWhile Char.isWhitespace).reverse.dropWhile Char.isWhitespace).reverse)

/-- JS `String.prototype.toLowerCase` on the character list. -/
def jsToLower (s : String) : String := String.mk (s.data.map Char.toLower)

/-- JS `String.prototype.toUpperCase` on the character list. -/
def jsToUpper (s : String) : String := String.mk (s.data.map Char.toUpper)

/-- `parseFilterKey` from generate.ts. -/
def parseFilterKey (input : Option String) : String :=
  match input with
  | none => ""
  | some s => jsToLower (jsTrim s)

/-- The parameters of one generation run that are fixed before the round
loop and derived purely from the options (after validation `targetSize` and
`maxKeySharePercent` are integers, held as `Nat`).  `keyCap` is
`Math.max(1, Math.ceil(targetSize * maxKeySharePercent / 100))`, which on
integers is `max 1 ((T * mks + 99) / 100)`.  `filterMarket` is the constant
`opts.market ? parseFilterKey(opts.market) : undefined` recomputed by the
source in each round. -/
structure GenParams where
  uniqueSeeds : List String
  targetSize : Nat
  minPopularity : ℚ
  maxDurationMs : ℚ
  exclude : List String
  market : Option String
  filterMarket : Option String
  keyCap : Nat
  maxRounds : Nat
  stagnationLimit : Nat
  seedProfileEnabled : Bool
  timeoutMs : ℚ
  account : Option String
  deriving Repr

def mkGenParams (o : GenerateOpts) : GenParams :=
  let T := o.targetSize.num.toNat
  let mks := (o.maxKeySharePercent.getD 25).num.toNat
  { uniqueSeeds := uniqueOrdered o.seedTrackUris
    targetSize := T
    minPopularity := o.minPopularity
    maxDurationMs := o.maxDurationMs
    exclude := o.excludeTrackUris.getD []
    market := o.market
    filterMarket :=
      match o.market with
      | some m => if m ≠ "" then some (parseFilterKey (some m)) else none
      | none => none
    keyCap := max 1 ((T * mks + 99) / 100)
    maxRounds := o.maxRounds.getD 8
    stagnationLimit := o.stagnationLimit.getD 2
    seedProfileEnabled := o.seedProfileEnabled.getD true
    timeoutMs := o.timeoutMs
    account := o.account }

/-- The mutable state of the round loop.  `reqTrace` is instrumentation (the
seed list of each issued request); everything else mirrors a `let` of the
source. -/
structure LoopState where
  result : List String
  seen : List String
  keyCounts : List (ℚ × Nat)
  keyByUri : List (String × ℚ)
  disableKeyDiversity : Bool
  kdStats : KeyDiversityStats
  sfStats : SourceFilterStats
  spUsed : Bool
  spQuery : List (String × ℚ)
  roundSeeds : List String
  staleRounds : Nat
  warnings : List String
  reqTrace : List (List String)
  deriving Repr

/-- `!candidate.name || candidate.name.trim().length === 0`. -/
def nameBlank (c : RecommendationTrack) : Bool :=
  match c.name with
  | none => true
  | some n => jsTrim n == ""

/-- Candidate derivation: `rec.tracks` when present (an empty array is
truthy in JS, so only `undefined` falls through), else the bare URI list
wrapped as tracks, with falsy URIs removed by the `Boolean(item.uri)`
filter. -/
def candidatesOf (resp : FetchResponse) : List RecommendationTrack :=
  match resp.tracks with
  | some ts => ts
  | none =>
      ((resp.uris.getD []).map fun u => { uri := u, id := u }).filter fun t => t.uri ≠ ""

def popDrop (P : GenParams) (c : RecommendationTrack) : Bool :=
  match c.popularity with
  | some p => decide (p < P.minPopularity)
  | none => false

def durDrop (P : GenParams) (c : RecommendationTrack) : Bool :=
  match c.duration_ms with
  | some d => decide (P.maxDurationMs < d)
  | none => false

/-- `filterMarket && Array.isArray(ms) && ms.length > 0 &&
!ms.includes(filterMarket.toUpperCase())`. -/
def marketDrop (P : GenParams) (c : RecommendationTrack) : Bool :=
  match P.filterMarket, c.available_markets with
  | some fm, some ms => optTruthy (some fm) && !ms.isEmpty && !(ms.contains (jsToUpper fm))
  | _, _ => false

/-- The candidate filter loop of a round, in source order: already-seen URIs
are skipped silently, each other rejection bumps its own counter, survivors
are kept in order (`{...candidate, uri}` is the candidate itself here). -/
def sourceFilterRun (P : GenParams) (seen : List String) :
    List RecommendationTrack → SourceFilterStats →
    List RecommendationTrack × SourceFilterStats
  | [], st => ([], st)
  | c :: cs, st =>
      if c.uri ∈ seen then sourceFilterRun P seen cs st
      else if nameBlank c then
        sourceFilterRun P seen cs { st with dropped_noname := st.dropped_noname + 1 }
      else if c.uri ∈ P.exclude then
        sourceFilterRun P seen cs { st with dropped_excluded := st.dropped_excluded + 1 }
      else if c.is_playable == some false then
        sourceFilterRun P seen cs { st with dropped_unplayable := st.dropped_unplayable + 1 }
      else if popDrop P c then
        sourceFilterRun P seen cs { st with dropped_popularity := st.dropped_popularity + 1 }
      else if durDrop P c then
        sourceFilterRun P seen cs { st with dropped_duration := st.dropped_duration + 1 }
      else if marketDrop P c then
        sourceFilterRun P seen cs { st with dropped_market := st.dropped_market + 1 }
      else
        let t := sourceFilterRun P seen cs st
        (c :: t.1, t.2)

/-- `for (const uri of missingKeys) { const key = features.get(uri)?.key;
if (typeof key === "number") keyByUri.set(uri, key); }`. -/
def updateKeys (f : String → Option ℚ) : List String → List (String × ℚ) → List (String × ℚ)
  | [], m => m
  | u :: us, m =>
      match f u with
      | some k => updateKeys f us (smSet m u k)
      | none => updateKeys f us m

/-- The state change shared by both `catch` sites that disable key
diversity when audio-features is unavailable. -/
def disableKd (s : LoopState) : LoopState :=
  { s with
      disableKeyDiversity := true
      kdStats := { s.kdStats with disabled_by_api := true, enabled := false }
      warnings := s.warnings ++ ["key_diversity: disabled because audio-features is unavailable."] }

/-- The key-diversity capping loop over the filtered candidates: a known key
at the cap rejects the candidate (counted), a known key below the cap is
counted up, unknown keys are never capped; after each acceptance the loop
breaks once `acceptedCandidates.length + result.length >= targetSize`. -/
def kdCapRun (P : GenParams) (keyByUri : List (String × ℚ)) (resultLen : Nat) :
    List RecommendationTrack → List (ℚ × Nat) → Nat → List RecommendationTrack →
    List (ℚ × Nat) × Nat × List RecommendationTrack
  | [], kc, dk, acc => (kc, dk, acc)
  | c :: cs, kc, dk, acc =>
      match smGet keyByUri c.uri with
      | some k =>
          let cur := (qmGet kc k).getD 0
          if P.keyCap ≤ cur then kdCapRun P keyByUri resultLen cs kc (dk + 1) acc
          else
            let kc1 := qmSet kc k (cur + 1)
            let acc1 := acc ++ [c]
            if P.targetSize ≤ acc1.length + resultLen then (kc1, dk, acc1)
            else kdCapRun P keyByUri resultLen cs kc1 dk acc1
      | none =>
          let acc1 := acc ++ [c]
          if P.targetSize ≤ acc1.length + resultLen then (kc, dk, acc1)
          else kdCapRun P keyByUri resultLen cs kc dk acc1

/-- The key-diversity phase of a round: when active, fetch the keys still
missing (`uniqueOrdered missingKeys` is the request, the walk is over
`missingKeys`), an unavailable endpoint disabling the feature and any other
error propagating; then — still inside the same `if` — run the capping loop
over the (possibly updated) key table.  When inactive, all filtered
candidates pass through. -/
def kdFetchKeys (env : GenEnv) (round : Nat) (s : LoopState)
    (fc : List RecommendationTrack) : Except CliError LoopState :=
  let missing := (fc.map fun c => c.uri).filter fun u => (smGet s.keyByUri u).isNone
  if 0 < missing.length then
    match env.featuresAt round with
    | Except.ok f => Except.ok { s with keyByUri := updateKeys f missing s.keyByUri }
    | Except.error e =>
        if isUnavailableEndpointError e then Except.ok (disableKd s)
        else Except.error e
  else Except.ok s

def kdPhase (P : GenParams) (env : GenEnv) (round : Nat) (s : LoopState)
    (fc : List RecommendationTrack) :
    Except CliError (LoopState × List RecommendationTrack) :=
  if s.disableKeyDiversity = false ∧ s.kdStats.enabled = true then
    match kdFetchKeys env round s fc with
    | Except.error e => Except.error e
    | Except.ok s1 =>
        let t := kdCapRun P s1.keyByUri s1.result.length fc s1.keyCounts 0 []
        Except.ok
          ({ s1 with
              keyCounts := t.1
              kdStats := { s1.kdStats with
                dropped_by_key := s1.kdStats.dropped_by_key + t.2.1 } },
           t.2.2)
  else Except.ok (s, fc)

/-- The new-track acceptance loop: stop at target size, skip URIs already in
`seen`, otherwise append to the result and record as newly accepted. -/
def acceptNew (T : Nat) : List RecommendationTrack → List String → List String →
    List String × List String × List String
  | [], res, seen => (res, seen, [])
  | c :: cs, res, seen =>
      if T ≤ res.length then (res, seen, [])
      else if c.uri ∈ seen then acceptNew T cs res seen
      else
        let t := acceptNew T cs (res ++ [c.uri]) (c.uri :: seen)
        (t.1, t.2.1, c.uri :: t.2.2)

def mkFetchOpts (P : GenParams) (s : LoopState) : FetchOpts :=
  { seedTrackUris := s.roundSeeds
    limit := 100
    market := P.market
    timeoutMs := P.timeoutMs
    account := P.account
    minPopularity := P.minPopularity
    maxDurationMs := P.maxDurationMs
    seedProfileQuery := if P.seedProfileEnabled then some s.spQuery else none }

/-- `staleRounds += 1; if (staleRounds >= stagnationLimit) break; continue;`:
the boolean is the break decision. -/
def bumpStale (P : GenParams) (s : LoopState) : LoopState × Bool :=
  let s1 := { s with staleRounds := s.staleRounds + 1 }
  (s1, decide (P.stagnationLimit ≤ s1.staleRounds))

/-- The start of one round: issue the recommendation request, append its
warnings, record the request, and run the source filter.  Returns the
updated state and the filtered candidates. -/
def roundPrelude (P : GenParams) (env : GenEnv) (round : Nat) (s : LoopState) :
    LoopState × List RecommendationTrack :=
  let rec0 := env.fetch round (mkFetchOpts P s)
  let s1 := { s with
      warnings := s.warnings
        ++ ((rec0.warnings.getD []).map fun line => "recommendation: " ++ line)
      reqTrace := s.reqTrace ++ [s.roundSeeds] }
  let fr := sourceFilterRun P s1.seen (candidatesOf rec0) s1.sfStats
  ({ s1 with sfStats := fr.2 }, fr.1)

/-- One iteration of the round loop of `generateTrackPool`. -/
def runRound (P : GenParams) (env : GenEnv) (round : Nat) (s : LoopState) :
    Except CliError (LoopState × Bool) :=
  let pr := roundPrelude P env round s
  if pr.2.length = 0 then Except.ok (bumpStale P pr.1)
  else
    match kdPhase P env round pr.1 pr.2 with
    | Except.error e => Except.error e
    | Except.ok t =>
        let a := acceptNew P.targetSize t.2 t.1.result t.1.seen
        let s4 := { t.1 with result := a.1, seen := a.2.1 }
        if a.2.2.length = 0 then Except.ok (bumpStale P s4)
        else Except.ok ({ s4 with staleRounds := 0, roundSeeds := a.2.2.take 5 }, false)

/-- `for (let round = 0; round < maxRounds && result.length < targetSize;
round += 1)`: `fuel` counts the remaining rounds (`maxRounds - round`). -/
def genLoopAux (P : GenParams) (env : GenEnv) :
    Nat → Nat → LoopState → Except CliError LoopState
  | 0, _, s => Except.ok s
  | fuel + 1, round, s =>
      if s.result.length < P.targetSize then
        match runRound P env round s with
        | Except.error e => Except.error e
        | Except.ok (s1, true) => Except.ok s1
        | Except.ok (s1, false) => genLoopAux P env fuel (round + 1) s1
      else Except.ok s

/-- The seed-key initialization walk (`for (const uri of uniqueSeeds)`). -/
def seedKeyInitAux (f : String → Option ℚ) :
    List String → List (String × ℚ) → List (ℚ × Nat) → List (String × ℚ) × List (ℚ × Nat)
  | [], kb, kc => (kb, kc)
  | u :: us, kb, kc =>
      match f u with
      | some k => seedKeyInitAux f us (smSet kb u k) (qmSet kc k ((qmGet kc k).getD 0 + 1))
      | none => seedKeyInitAux f us kb kc

/-- Everything `generateTrackPool` does after validation and before the
round loop: duplicate-seed and exclude-list warnings, the initial accepted
list (the unique seeds truncated to the target size), the seed-profile
resolution, and the key-diversity initialization. -/
def genInitLoopState (o : GenerateOpts) (env : GenEnv) : Except CliError LoopState :=
  let P := mkGenParams o
  let uniqueSeeds := P.uniqueSeeds
  let droppedSeedDuplicates := o.seedTrackUris.length - uniqueSeeds.length
  let w0 : List String :=
    if 0 < droppedSeedDuplicates then
      ["Dropped " ++ toString droppedSeedDuplicates ++ " duplicate seed track(s)."]
    else []
  let excludeCount := (uniqueOrdered (o.excludeTrackUris.getD [])).length
  let w1 := w0 ++ (if 0 < excludeCount then ["Exclude list size: " ++ toString excludeCount] else [])
  let result0 := uniqueSeeds.take P.targetSize
  let diversifyKeys := o.diversifyKeys.getD true
  let sp :=
    if P.seedProfileEnabled then
      let profile := env.resolveSeedProfile
      (profile.used, profile.query,
        w1 ++ (if profile.used then []
               else ["seed_profile: disabled fallback; using quality filters only."])
           ++ profile.warnings)
    else (false, ([] : List (String × ℚ)), w1)
  let base : LoopState :=
    { result := result0
      seen := result0
      keyCounts := []
      keyByUri := []
      disableKeyDiversity := !diversifyKeys
      kdStats := { enabled := diversifyKeys, key_cap := P.keyCap }
      sfStats := {}
      spUsed := sp.1
      spQuery := sp.2.1
      roundSeeds := uniqueSeeds.take 5
      staleRounds := 0
      warnings := sp.2.2
      reqTrace := [] }
  if diversifyKeys then
    match env.seedFeatures with
    | Except.ok f =>
        let kk := seedKeyInitAux f uniqueSeeds [] []
        Except.ok { base with
          keyByUri := kk.1
          keyCounts := kk.2
          warnings := base.warnings
            ++ (if 0 < kk.2.length then ["key_diversity: initialized from seed key profile."]
                else []) }
    | Except.error e =>
        if isUnavailableEndpointError e then
          Except.ok { base with
            disableKeyDiversity := true
            kdStats := { base.kdStats with enabled := false, disabled_by_api := true }
            warnings := base.warnings
              ++ ["key_diversity: disabled because audio-features is unavailable."] }
        else Except.error e
  else Except.ok base

/-- `generateTrackPool` up to the end of the round loop; the final
`LoopState` is exposed so theorems can inspect the request trace. -/
def generateTrackPoolState (o : GenerateOpts) (env : GenEnv) : Except CliError LoopState :=
  match validateGenerate o with
  | some e => Except.error e
  | none =>
      match genInitLoopState o env with
      | Except.error e => Except.error e
      | Except.ok s0 => genLoopAux (mkGenParams o) env (mkGenParams o).maxRounds 0 s0

/-- `generateTrackPool` from generate.ts: run the loop, then build the
result: shortfall (natural subtraction models `Math.max(0, ...)`), summed
filtered count, the trailing warnings in source order, and the final stats
(`stagnation_by_filters` is first `min(limit, stale)` and then overwritten
with `stale` when `stale >= limit`). -/
def generateTrackPool (o : GenerateOpts) (env : GenEnv) : Except CliError GenerateResult :=
  match generateTrackPoolState o env with
  | Except.error e => Except.error e
  | Except.ok s =>
      let P := mkGenParams o
      let shortfall := P.targetSize - s.result.length
      let filteredCount :=
        s.sfStats.dropped_noname + s.sfStats.dropped_excluded + s.sfStats.dropped_unplayable +
          s.sfStats.dropped_market + s.sfStats.dropped_popularity + s.sfStats.dropped_duration +
          s.kdStats.dropped_by_key
      let warnings := s.warnings
        ++ (if 0 < shortfall then
              ["Generated " ++ toString s.result.length ++ "/" ++ toString P.targetSize
                ++ " tracks; Spotify recommendations exhausted."]
            else [])
        ++ (if P.stagnationLimit ≤ s.staleRounds then
              ["stagnation_by_filters: no growth in " ++ toString s.staleRounds
                ++ " consecutive rounds."]
            else [])
        ++ (if 0 < s.sfStats.dropped_noname then
              ["source_filter: dropped_noname=" ++ toString s.sfStats.dropped_noname]
            else [])
        ++ (if 0 < s.sfStats.dropped_excluded then
              ["source_filter: dropped_excluded=" ++ toString s.sfStats.dropped_excluded]
            else [])
        ++ (if 0 < s.sfStats.dropped_unplayable then
              ["source_filter: dropped_unplayable=" ++ toString s.sfStats.dropped_unplayable]
            else [])
        ++ (if 0 < s.sfStats.dropped_market then
              ["source_filter: dropped_market=" ++ toString s.sfStats.dropped_market]
            else [])
        ++ (if 0 < s.sfStats.dropped_popularity then
              ["source_filter: dropped_popularity=" ++ toString s.sfStats.dropped_popularity]
            else [])
        ++ (if 0 < s.sfStats.dropped_duration then
              ["source_filter: dropped_duration=" ++ toString s.sfStats.dropped_duration]
            else [])
        ++ (if 0 < s.kdStats.dropped_by_key then
              ["key_diversity: dropped_by_key=" ++ toString s.kdStats.dropped_by_key]
            else [])
      Except.ok
        { seedCount := P.uniqueSeeds.length
          generatedCount := s.result.length
          shortfall := shortfall
          trackUris := s.result
          warnings := warnings
          filteredCount := filteredCount
          filterStats :=
            { source_filter := s.sfStats
              key_diversity := s.kdStats
              seed_profile := { enabled := P.seedProfileEnabled, used := s.spUsed }
              stagnation_by_filters :=
                if P.stagnationLimit ≤ s.staleRounds then s.staleRounds
                else min P.stagnationLimit s.staleRounds } }

/-- The guard of manage-generate.ts (lines 92–97): after defaulting,
customizing `--max-key-share` (a resolved value other than the default 25)
with key diversity disabled is a usage error. -/
def manageGenerateKeyShareCheck (diversifyKeys : Option Bool)
    (maxKeySharePercent : Option ℚ) : Option CliError :=
  let dk := diversifyKeys.getD true
  let mks := maxKeySharePercent.getD 25
  if dk = false ∧ mks ≠ 25 then
    some { code := "INVALID_USAGE"
           message := "--max-key-share is only applicable with --diversify-keys." }
  else none

/-! ### Supporting lemmas for the generation claims -/

lemma uniqueOrderedAux_spec :
    ∀ (l seen : List String),
      (∀ u ∈ uniqueOrderedAux seen l, u ∉ seen) ∧ (uniqueOrderedAux seen l).Nodup := by
  intro l
  induction l with
  | nil => intro seen; exact ⟨by simp [uniqueOrderedAux], by simp [uniqueOrderedAux]⟩
  | cons x xs ih =>
    intro seen
    simp only [uniqueOrderedAux]
    by_cases hx : x ∈ seen
    · rw [if_pos hx]; exact ih seen
    · rw [if_neg hx]
      obtain ⟨h1, h2⟩ := ih (x :: seen)
      constructor
      · intro u hu
        rcases List.mem_cons.mp hu with hu | hu
        · rw [hu]; exact hx
        · intro hmem; exact h1 u hu (List.mem_cons_of_mem x hmem)
      · exact List.nodup_cons.mpr ⟨fun hmem => h1 x hmem (List.mem_cons_self x seen), h2⟩

lemma uniqueOrdered_nodup (l : List String) : (uniqueOrdered l).Nodup :=
  (uniqueOrderedAux_spec l []).2

/-- The C4 loop invariant: accepted URIs are pairwise distinct, never more
than the target size, all recorded as seen, and the truncated unique seed
list stays a prefix. -/
def InvC4 (T : Nat) (lead : List String) (s : LoopState) : Prop :=
  s.result.Nodup ∧ s.result.length ≤ T ∧ (∀ u ∈ s.result, u ∈ s.seen) ∧ lead <+: s.result

lemma acceptNew_spec (T : Nat) :
    ∀ (cs : List RecommendationTrack) (res seen : List String),
      (acceptNew T cs res seen).1 = res ++ (acceptNew T cs res seen).2.2
      ∧ (∀ u ∈ (acceptNew T cs res seen).2.2, u ∉ seen)
      ∧ (acceptNew T cs res seen).2.2.Nodup
      ∧ (∀ u ∈ seen, u ∈ (acceptNew T cs res seen).2.1)
      ∧ (∀ u ∈ (acceptNew T cs res seen).2.2, u ∈ (acceptNew T cs res seen).2.1)
      ∧ (res.length ≤ T → (acceptNew T cs res seen).1.length ≤ T) := by
  intro cs
  induction cs with
  | nil =>
    intro res seen
    refine ⟨by simp [acceptNew], by simp [acceptNew], by simp [acceptNew], ?_,
      by simp [acceptNew], by simp [acceptNew]⟩
    intro u hu
    simpa [acceptNew] using hu
  | cons c cs ih =>
    intro res seen
    simp only [acceptNew]
    by_cases h1 : T ≤ res.length
    · rw [if_pos h1]
      refine ⟨by simp, by simp, by simp, fun u hu => hu, by simp, fun h => h⟩
    · rw [if_neg h1]
      by_cases h2 : c.uri ∈ seen
      · rw [if_pos h2]; exact ih res seen
      · rw [if_neg h2]
        obtain ⟨e1, e2, e3, e4, e5, e6⟩ := ih (res ++ [c.uri]) (c.uri :: seen)
        refine ⟨?_, ?_, ?_, ?_, ?_, ?_⟩
        · rw [e1, List.append_assoc, List.singleton_append]
        · intro u hu
          rcases List.mem_cons.mp hu with hu | hu
          · rw [hu]; exact h2
          · intro hs; exact e2 u hu (List.mem_cons_of_mem _ hs)
        · exact List.nodup_cons.mpr ⟨fun hmem => e2 _ hmem (List.mem_cons_self _ _), e3⟩
        · intro u hu; exact e4 u (List.mem_cons_of_mem _ hu)
        · intro u hu
          rcases List.mem_cons.mp hu with hu | hu
          · rw [hu]; exact e4 c.uri (List.mem_cons_self _ _)
          · exact e5 u hu
        · intro _
          apply e6
          simp only [List.length_append, List.length_singleton]
          omega

lemma kdFetchKeys_fields (env : GenEnv) (round : Nat) (s : LoopState)
    (fc : List RecommendationTrack) (s1 : LoopState)
    (h : kdFetchKeys env round s fc = Except.ok s1) :
    s1.result = s.result ∧ s1.seen = s.seen ∧ s1.roundSeeds = s.roundSeeds
      ∧ s1.staleRounds = s.staleRounds ∧ s1.reqTrace = s.reqTrace := by
  unfold kdFetchKeys at h
  dsimp only [] at h
  split_ifs at h with hm
  · cases hfeat : env.featuresAt round with
    | ok f =>
      rw [hfeat] at h
      injection h with h'
      subst h'
      exact ⟨rfl, rfl, rfl, rfl, rfl⟩
    | error e =>
      rw [hfeat] at h
      dsimp only [] at h
      split_ifs at h with hu
      injection h with h'
      subst h'
      exact ⟨rfl, rfl, rfl, rfl, rfl⟩
  · injection h with h'
    subst h'
    exact ⟨rfl, rfl, rfl, rfl, rfl⟩

lemma kdPhase_fields (P : GenParams) (env : GenEnv) (round : Nat) (s : LoopState)
    (fc : List RecommendationTrack) (s1 : LoopState) (acc : List RecommendationTrack)
    (h : kdPhase P env round s fc = Except.ok (s1, acc)) :
    s1.result = s.result ∧ s1.seen = s.seen ∧ s1.roundSeeds = s.roundSeeds
      ∧ s1.staleRounds = s.staleRounds ∧ s1.reqTrace = s.reqTrace := by
  unfold kdPhase at h
  split_ifs at h with hc
  · cases hk : kdFetchKeys env round s fc with
    | ok sk =>
      rw [hk] at h
      obtain ⟨f1, f2, f3, f4, f5⟩ := kdFetchKeys_fields env round s fc sk hk
      injection h with h'
      have hs1 : s1 = { sk with
          keyCounts := (kdCapRun P sk.keyByUri sk.result.length fc sk.keyCounts 0 []).1
          kdStats := { sk.kdStats with
            dropped_by_key := sk.kdStats.dropped_by_key
              + (kdCapRun P sk.keyByUri sk.result.length fc sk.keyCounts 0 []).2.1 } } :=
        congrArg Prod.fst h'.symm
      rw [hs1]
      exact ⟨f1, f2, f3, f4, f5⟩
    | error e =>
      rw [hk] at h
      exact absurd h (by simp)
  · injection h with h'
    have hs1 : s1 = s := congrArg Prod.fst h'.symm
    rw [hs1]
    exact ⟨rfl, rfl, rfl, rfl, rfl⟩

lemma roundPrelude_fields (P : GenParams) (env : GenEnv) (round : Nat) (s : LoopState) :
    (roundPrelude P env round s).1.result = s.result
    ∧ (roundPrelude P env round s).1.seen = s.seen
    ∧ (roundPrelude P env round s).1.roundSeeds = s.roundSeeds
    ∧ (roundPrelude P env round s).1.staleRounds = s.staleRounds
    ∧ (roundPrelude P env round s).1.reqTrace = s.reqTrace ++ [s.roundSeeds] :=
  ⟨rfl, rfl, rfl, rfl, rfl⟩

/-- The state produced by one round, relative to the entry state: the request
trace grows by exactly the round's seed list; the accepted list grows by a
(possibly empty) batch `nt` of previously unseen, pairwise distinct URIs; the
seen set only grows and absorbs `nt`; the target size is never exceeded; a
zero-growth round keeps the rotating seeds and bumps the stale counter, a
growing round resets the stale counter and rotates the seeds to the first
five new URIs. -/
lemma runRound_shape (P : GenParams) (env : GenEnv) (round : Nat) (s s1 : LoopState) (b : Bool)
    (h : runRound P env round s = Except.ok (s1, b)) :
    s1.reqTrace = s.reqTrace ++ [s.roundSeeds]
    ∧ ∃ nt : List String,
        s1.result = s.result ++ nt
        ∧ (∀ u ∈ nt, u ∉ s.seen)
        ∧ nt.Nodup
        ∧ (∀ u ∈ s.seen, u ∈ s1.seen)
        ∧ (∀ u ∈ nt, u ∈ s1.seen)
        ∧ (s.result.length ≤ P.targetSize → s1.result.length ≤ P.targetSize)
        ∧ (nt = [] → s1.roundSeeds = s.roundSeeds ∧ s1.staleRounds = s.staleRounds + 1)
        ∧ (nt ≠ [] → s1.roundSeeds = nt.take 5 ∧ s1.staleRounds = 0) := by
  obtain ⟨p1, p2, p3, p4, p5⟩ := roundPrelude_fields P env round s
  unfold runRound at h
  dsimp only [] at h
  split_ifs at h with hz
  · simp only [bumpStale] at h
    injection h with h'
    rw [Prod.mk.injEq] at h'
    obtain ⟨hA, hB⟩ := h'
    subst hA
    dsimp only []
    refine ⟨p5, [], ?_, by simp, by simp, ?_, by simp, ?_, ?_, by simp⟩
    · rw [List.append_nil]; exact p1
    · intro u hu
      rw [p2]
      exact hu
    · intro hlen
      rw [p1]
      exact hlen
    · intro _
      exact ⟨p3, by rw [p4]⟩
  · cases hkd : kdPhase P env round (roundPrelude P env round s).1 (roundPrelude P env round s).2 with
    | error e =>
      rw [hkd] at h
      simp at h
    | ok t =>
      rw [hkd] at h
      dsimp only [] at h
      obtain ⟨k1, k2, k3, k4, k5⟩ :=
        kdPhase_fields P env round (roundPrelude P env round s).1 (roundPrelude P env round s).2
          t.1 t.2 (by rw [hkd])
      have hres : t.1.result = s.result := k1.trans p1
      have hseen : t.1.seen = s.seen := k2.trans p2
      have hrs : t.1.roundSeeds = s.roundSeeds := k3.trans p3
      have hst : t.1.staleRounds = s.staleRounds := k4.trans p4
      have htr : t.1.reqTrace = s.reqTrace ++ [s.roundSeeds] := k5.trans p5
      obtain ⟨e1, e2, e3, e4, e5, e6⟩ := acceptNew_spec P.targetSize t.2 t.1.result t.1.seen
      set a := acceptNew P.targetSize t.2 t.1.result t.1.seen with ha
      split_ifs at h with hn
      · simp only [bumpStale] at h
        injection h with h'
        rw [Prod.mk.injEq] at h'
        obtain ⟨hA, hB⟩ := h'
        subst hA
        dsimp only []
        have hnt : a.2.2 = [] := List.length_eq_zero.mp hn
        refine ⟨htr, [], ?_, by simp, by simp, ?_, by simp, ?_, ?_, by simp⟩
        · show a.1 = s.result ++ []
          rw [List.append_nil, e1, hnt, List.append_nil, hres]
        · intro u hu
          show u ∈ a.2.1
          apply e4
          rw [hseen]
          exact hu
        · show s.result.length ≤ P.targetSize → a.1.length ≤ P.targetSize
          intro hlen
          apply e6
          rw [hres]
          exact hlen
        · intro _
          refine ⟨hrs, by rw [hst]⟩
      · injection h with h'
        rw [Prod.mk.injEq] at h'
        obtain ⟨hA, hB⟩ := h'
        subst hA
        dsimp only []
        have hnt : a.2.2 ≠ [] := by
          intro hc
          rw [hc] at hn
          exact hn rfl
        refine ⟨htr, a.2.2, ?_, ?_, e3, ?_, ?_, ?_, fun hc => absurd hc hnt, fun _ => ⟨rfl, rfl⟩⟩
        · show a.1 = s.result ++ a.2.2
          rw [e1, hres]
        · intro u hu
          have := e2 u hu
          rw [hseen] at this
          exact this
        · intro u hu
          show u ∈ a.2.1
          apply e4
          rw [hseen]
          exact hu
        · intro u hu
          exact e5 u hu
        · show s.result.length ≤ P.targetSize → a.1.length ≤ P.targetSize
          intro hlen
          apply e6
          rw [hres]
          exact hlen

lemma genInitLoopState_fields (o : GenerateOpts) (env : GenEnv) (s0 : LoopState)
    (h : genInitLoopState o env = Except.ok s0) :
    s0.result = (mkGenParams o).uniqueSeeds.take (mkGenParams o).targetSize
    ∧ s0.seen = s0.result
    ∧ s0.roundSeeds = (mkGenParams o).uniqueSeeds.take 5
    ∧ s0.staleRounds = 0
    ∧ s0.reqTrace = [] := by
  unfold genInitLoopState at h
  cases hsf : env.seedFeatures with
  | ok f =>
    rw [hsf] at h
    dsimp only [] at h
    split_ifs at h <;>
      (injection h with h'; subst h'; exact ⟨rfl, rfl, rfl, rfl, rfl⟩)
  | error e =>
    rw [hsf] at h
    dsimp only [] at h
    split_ifs at h <;>
      (injection h with h'; subst h'; exact ⟨rfl, rfl, rfl, rfl, rfl⟩)

lemma genLoopAux_inv (P : GenParams) (env : GenEnv) (lead : List String) :
    ∀ fuel round s s1, InvC4 P.targetSize lead s →
      genLoopAux P env fuel round s = Except.ok s1 → InvC4 P.targetSize lead s1 := by
  intro fuel
  induction fuel with
  | zero =>
    intro round s s1 hInv h
    injection h with h'
    subst h'
    exact hInv
  | succ f ih =>
    intro round s s1 hInv h
    simp only [genLoopAux] at h
    split_ifs at h with hlt
    · cases hr : runRound P env round s with
      | error e =>
        rw [hr] at h
        simp at h
      | ok t =>
        rw [hr] at h
        obtain ⟨s2, b⟩ := t
        obtain ⟨htr, nt, hres, hfresh, hnodup, hmono, hntseen, hlen, _, _⟩ :=
          runRound_shape P env round s s2 b hr
        obtain ⟨i1, i2, i3, i4⟩ := hInv
        have hInv2 : InvC4 P.targetSize lead s2 := by
          refine ⟨?_, hlen i2, ?_, ?_⟩
          · rw [hres]
            exact List.Nodup.append i1 hnodup (fun u hu hnt => hfresh u hnt (i3 u hu))
          · intro u hu
            rw [hres] at hu
            rcases List.mem_append.mp hu with hu | hu
            · exact hmono u (i3 u hu)
            · exact hntseen u hu
          · rw [hres]
            exact i4.trans (List.prefix_append _ _)
        cases b with
        | true =>
          dsimp only [] at h
          injection h with h'
          subst h'
          exact hInv2
        | false =>
          dsimp only [] at h
          exact ih (round + 1) s2 s1 hInv2 h
    · injection h with h'
      subst h'
      exact hInv

lemma generateTrackPoolState_inv (o : GenerateOpts) (env : GenEnv) (s : LoopState)
    (h : generateTrackPoolState o env = Except.ok s) :
    InvC4 (mkGenParams o).targetSize
      ((mkGenParams o).uniqueSeeds.take (mkGenParams o).targetSize) s := by
  unfold generateTrackPoolState at h
  cases hv : validateGenerate o with
  | some e => rw [hv] at h; simp at h
  | none =>
    rw [hv] at h
    cases hi : genInitLoopState o env with
    | error e => rw [hi] at h; simp at h
    | ok s0 =>
      rw [hi] at h
      obtain ⟨f1, f2, f3, f4, f5⟩ := genInitLoopState_fields o env s0 hi
      have hInv0 : InvC4 (mkGenParams o).targetSize
          ((mkGenParams o).uniqueSeeds.take (mkGenParams o).targetSize) s0 := by
        refine ⟨?_, ?_, ?_, ?_⟩
        · rw [f1]
          exact (List.take_sublist _ _).nodup (uniqueOrdered_nodup _)
        · rw [f1, List.length_take]
          exact min_le_left _ _
        · intro u hu
          rw [f2]
          exact hu
        · rw [f1]
      exact genLoopAux_inv (mkGenParams o) env _ _ _ s0 s hInv0 h

/-! ### Claim theorems C4 and C5 -/

/-- C4: for every parameter set and every environment (fetcher behaviour),
the accepted list satisfies, at every point of the run, the invariant
`InvC4`: its URIs are pairwise distinct, it never exceeds the target size,
and it begins with the de-duplicated seed URIs in input order truncated to
the target size.  Conjunct 1: the invariant holds at initialization (where
the accepted list is exactly that truncated unique seed list); conjunct 2:
every round preserves it; conjunct 3: it holds of the returned
`trackUris`. -/
theorem claim_C4_accepted_invariants :
    (∀ (o : GenerateOpts) (env : GenEnv) (s0 : LoopState),
        genInitLoopState o env = Except.ok s0 →
        s0.result = (mkGenParams o).uniqueSeeds.take (mkGenParams o).targetSize
        ∧ InvC4 (mkGenParams o).targetSize
            ((mkGenParams o).uniqueSeeds.take (mkGenParams o).targetSize) s0)
    ∧ (∀ (P : GenParams) (env : GenEnv) (round : Nat) (s s1 : LoopState) (b : Bool)
        (lead : List String),
        InvC4 P.targetSize lead s → runRound P env round s = Except.ok (s1, b) →
        InvC4 P.targetSize lead s1)
    ∧ (∀ (o : GenerateOpts) (env : GenEnv) (res : GenerateResult),
        generateTrackPool o env = Except.ok res →
        res.trackUris.Nodup
        ∧ (mkGenParams o).uniqueSeeds.take (mkGenParams o).targetSize <+: res.trackUris
        ∧ res.trackUris.length ≤ (mkGenParams o).targetSize) := by
  refine ⟨?_, ?_, ?_⟩
  · intro o env s0 h
    obtain ⟨f1, f2, f3, f4, f5⟩ := genInitLoopState_fields o env s0 h
    refine ⟨f1, ?_, ?_, ?_, ?_⟩
    · rw [f1]
      exact (List.take_sublist _ _).nodup (uniqueOrdered_nodup _)
    · rw [f1, List.length_take]
      exact min_le_left _ _
    · intro u hu
      rw [f2]
      exact hu
    · rw [f1]
  · intro P env round s s1 b lead hInv hr
    obtain ⟨htr, nt, hres, hfresh, hnodup, hmono, hntseen, hlen, _, _⟩ :=
      runRound_shape P env round s s1 b hr
    obtain ⟨i1, i2, i3, i4⟩ := hInv
    refine ⟨?_, hlen i2, ?_, ?_⟩
    · rw [hres]
      exact List.Nodup.append i1 hnodup (fun u hu hnt => hfresh u hnt (i3 u hu))
    · intro u hu
      rw [hres] at hu
      rcases List.mem_append.mp hu with hu | hu
      · exact hmono u (i3 u hu)
      · exact hntseen u hu
    · rw [hres]
      exact i4.trans (List.prefix_append _ _)
  · intro o env res h
    unfold generateTrackPool at h
    cases hs : generateTrackPoolState o env with
    | error e => rw [hs] at h; simp at h
    | ok s =>
      rw [hs] at h
      dsimp only [] at h
      injection h with h'
      obtain ⟨i1, i2, i3, i4⟩ := generateTrackPoolState_inv o env s hs
      subst h'
      exact ⟨i1, i4, i2⟩

/-- Witness for C4 at a concrete input (the specification's own §8 vector:
seeds `[a,b,c]`, target 6, one fetch returning `[c,d,e,f]`). -/
theorem claim_C4_witness :
    ∃ res, generateTrackPool
        { seedTrackUris := ["a", "b", "c"], targetSize := 6, minPopularity := 30,
          maxDurationMs := 240000, seedProfileEnabled := some false,
          diversifyKeys := some false }
        { resolveSeedProfile := { used := false, query := [], warnings := [] }
          seedFeatures := Except.ok fun _ => none
          featuresAt := fun _ => Except.ok fun _ => none
          fetch := fun r _ =>
            if r = 0 then
              { tracks := some [{ uri := "c", name := some "n" }, { uri := "d", name := some "n" },
                  { uri := "e", name := some "n" }, { uri := "f", name := some "n" }] }
            else {} } = Except.ok res
      ∧ res.trackUris.Nodup ∧ res.trackUris.length ≤ 6 := by
  cases hres : generateTrackPool
      { seedTrackUris := ["a", "b", "c"], targetSize := 6, minPopularity := 30,
        maxDurationMs := 240000, seedProfileEnabled := some false,
        diversifyKeys := some false }
      { resolveSeedProfile := { used := false, query := [], warnings := [] }
        seedFeatures := Except.ok fun _ => none
        featuresAt := fun _ => Except.ok fun _ => none
        fetch := fun r _ =>
          if r = 0 then
            { tracks := some [{ uri := "c", name := some "n" }, { uri := "d", name := some "n" },
                { uri := "e", name := some "n" }, { uri := "f", name := some "n" }] }
          else {} } with
  | error e =>
    have hsome : (generateTrackPool
        { seedTrackUris := ["a", "b", "c"], targetSize := 6, minPopularity := 30,
          maxDurationMs := 240000, seedProfileEnabled := some false,
          diversifyKeys := some false }
        { resolveSeedProfile := { used := false, query := [], warnings := [] }
          seedFeatures := Except.ok fun _ => none
          featuresAt := fun _ => Except.ok fun _ => none
          fetch := fun r _ =>
            if r = 0 then
              { tracks := some [{ uri := "c", name := some "n" }, { uri := "d", name := some "n" },
                  { uri := "e", name := some "n" }, { uri := "f", name := some "n" }] }
            else {} }).toOption.isSome = true := by decide
    rw [hres] at hsome
    simp [Except.toOption] at hsome
  | ok res =>
    have hp := claim_C4_accepted_invariants.2.2 _ _ res hres
    exact ⟨res, rfl, hp.1, hp.2.2⟩

/-- C5 (amended): the rotating seed set of the candidate requests.
Conjunct 1: the first request of a run uses the first five unique seed URIs
(and no requests have been issued at initialization).  Conjunct 2: every
round issues exactly one request seeded with the current rotating list; a
round that accepts no new track leaves the rotating list unchanged (it does
not revert to the original seeds), and a round that accepts a non-empty
batch `nt` rotates the list to `nt.take 5` — the first up-to-five newly
accepted URIs in acceptance order (not "most recent first"). -/
theorem claim_C5_amended_rotating_seeds :
    (∀ (o : GenerateOpts) (env : GenEnv) (s0 : LoopState),
        genInitLoopState o env = Except.ok s0 →
        s0.roundSeeds = (mkGenParams o).uniqueSeeds.take 5 ∧ s0.reqTrace = [])
    ∧ (∀ (P : GenParams) (env : GenEnv) (round : Nat) (s s1 : LoopState) (b : Bool),
        runRound P env round s = Except.ok (s1, b) →
        s1.reqTrace = s.reqTrace ++ [s.roundSeeds]
        ∧ ∃ nt, s1.result = s.result ++ nt
            ∧ (nt = [] → s1.roundSeeds = s.roundSeeds)
            ∧ (nt ≠ [] → s1.roundSeeds = nt.take 5)) := by
  constructor
  · intro o env s0 h
    obtain ⟨_, _, f3, _, f5⟩ := genInitLoopState_fields o env s0 h
    exact ⟨f3, f5⟩
  · intro P env round s s1 b h
    obtain ⟨htr, nt, hres, _, _, _, _, _, hempty, hgrow⟩ := runRound_shape P env round s s1 b h
    exact ⟨htr, nt, hres, fun he => (hempty he).1, fun he => (hgrow he).1⟩

/-- Counterexample for C5 as stated: seeds `[s1,s2,s3]`, target 20, round 0
returning six fresh candidates `c1..c6` (all accepted), later rounds
returning nothing.  The round-1 request is seeded with `[c1..c5]` — the
first five of the new batch in acceptance order — not with the five most
recently accepted URIs most-recent-first (`reverse.take 5 = [c6,c5,c4,c3,c2]`);
and the round-2 request (after the zero-growth round 1) is again seeded with
`[c1..c5]`, not with the original seeds `[s1,s2,s3]` as the claimed fallback
would demand. -/
theorem claim_C5_counterexample :
    ((generateTrackPoolState
        { seedTrackUris := ["s1", "s2", "s3"], targetSize := 20, minPopularity := 30,
          maxDurationMs := 240000, seedProfileEnabled := some false,
          diversifyKeys := some false }
        { resolveSeedProfile := { used := false, query := [], warnings := [] }
          seedFeatures := Except.ok fun _ => none
          featuresAt := fun _ => Except.ok fun _ => none
          fetch := fun r _ =>
            if r = 0 then
              { tracks := some [{ uri := "c1", name := some "n" }, { uri := "c2", name := some "n" },
                  { uri := "c3", name := some "n" }, { uri := "c4", name := some "n" },
                  { uri := "c5", name := some "n" }, { uri := "c6", name := some "n" }] }
            else {} }).toOption.map fun s => (s.reqTrace, s.result))
      = some ([["s1", "s2", "s3"], ["c1", "c2", "c3", "c4", "c5"],
          ["c1", "c2", "c3", "c4", "c5"]],
          ["s1", "s2", "s3", "c1", "c2", "c3", "c4", "c5", "c6"])
    ∧ ["c1", "c2", "c3", "c4", "c5"]
        ≠ (["s1", "s2", "s3", "c1", "c2", "c3", "c4", "c5", "c6"].reverse.take 5)
    ∧ ["c1", "c2", "c3", "c4", "c5"] ≠ ["s1", "s2", "s3"] :=
  ⟨by decide, by decide, by decide⟩

/-- Witness for C5 at a concrete input: the first request of a concrete run
uses the first five unique seeds. -/
theorem claim_C5_witness :
    ((genInitLoopState
        { seedTrackUris := ["a", "b", "c", "a"], targetSize := 6, minPopularity := 30,
          maxDurationMs := 240000, seedProfileEnabled := some false,
          diversifyKeys := some false }
        { resolveSeedProfile := { used := false, query := [], warnings := [] }
          seedFeatures := Except.ok fun _ => none
          featuresAt := fun _ => Except.ok fun _ => none
          fetch := fun _ _ => {} }).toOption.map fun s => s.roundSeeds)
      = some ["a", "b", "c"] := by
  cases hs : genInitLoopState
      { seedTrackUris := ["a", "b", "c", "a"], targetSize := 6, minPopularity := 30,
        maxDurationMs := 240000, seedProfileEnabled := some false,
        diversifyKeys := some false }
      { resolveSeedProfile := { used := false, query := [], warnings := [] }
        seedFeatures := Except.ok fun _ => none
        featuresAt := fun _ => Except.ok fun _ => none
        fetch := fun _ _ => {} } with
  | error e =>
    have hsome : (genInitLoopState
        { seedTrackUris := ["a", "b", "c", "a"], targetSize := 6, minPopularity := 30,
          maxDurationMs := 240000, seedProfileEnabled := some false,
          diversifyKeys := some false }
        { resolveSeedProfile := { used := false, query := [], warnings := [] }
          seedFeatures := Except.ok fun _ => none
          featuresAt := fun _ => Except.ok fun _ => none
          fetch := fun _ _ => {} }).toOption.isSome = true := by decide
    rw [hs] at hsome
    simp [Except.toOption] at hsome
  | ok s0 =>
    have h := (claim_C5_amended_rotating_seeds.1 _ _ s0 hs).1
    show some s0.roundSeeds = some ["a", "b", "c"]
    rw [h]
    decide

/-! ### Claim C6: stagnation -/

/-- A candidate survives the source filter iff none of the rejection tests
of the round loop fires (already accepted, blank name, excluded, unplayable,
low popularity, too long, wrong market). -/
def survivesSourceFilter (P : GenParams) (seen : List String)
    (c : RecommendationTrack) : Bool :=
  !(decide (c.uri ∈ seen)) && !(nameBlank c) && !(decide (c.uri ∈ P.exclude))
    && !(c.is_playable == some false) && !(popDrop P c) && !(durDrop P c)
    && !(marketDrop P c)

lemma sourceFilterRun_nil (P : GenParams) (seen : List String) :
    ∀ (cs : List RecommendationTrack) (st : SourceFilterStats),
      (∀ c ∈ cs, survivesSourceFilter P seen c = false) →
      (sourceFilterRun P seen cs st).1 = [] := by
  intro cs
  induction cs with
  | nil => intro st _; rfl
  | cons c cs ih =>
    intro st h
    have hc := h c (List.mem_cons_self c cs)
    have hrest := fun d hd => h d (List.mem_cons_of_mem c hd)
    simp only [sourceFilterRun]
    split_ifs with h1 h2 h3 h4 h5 h6 h7
    · exact ih _ hrest
    · exact ih _ hrest
    · exact ih _ hrest
    · exact ih _ hrest
    · exact ih _ hrest
    · exact ih _ hrest
    · exact ih _ hrest
    · exfalso
      simp only [survivesSourceFilter, Bool.and_eq_false_iff] at hc
      rcases hc with ((((((hc | hc) | hc) | hc) | hc) | hc) | hc) <;> simp_all

/-- A round whose candidates all fail the source filter only bumps the stale
counter (and warnings, stats and the request trace). -/
lemma runRound_stagnant (P : GenParams) (env : GenEnv) (round : Nat) (s : LoopState)
    (h : ∀ c ∈ candidatesOf (env.fetch round (mkFetchOpts P s)),
        survivesSourceFilter P s.seen c = false) :
    ∃ w sf, runRound P env round s
      = Except.ok
          ({ s with
             warnings := w
             sfStats := sf
             reqTrace := s.reqTrace ++ [s.roundSeeds]
             staleRounds := s.staleRounds + 1 },
           decide (P.stagnationLimit ≤ s.staleRounds + 1)) := by
  have hnil : (roundPrelude P env round s).2 = [] := by
    unfold roundPrelude
    dsimp only []
    exact sourceFilterRun_nil P s.seen _ _ h
  refine ⟨(roundPrelude P env round s).1.warnings, (roundPrelude P env round s).1.sfStats, ?_⟩
  unfold runRound
  dsimp only []
  rw [if_pos (by rw [hnil]; rfl)]
  rfl

/-- If from round `round` on every request yields only candidates that the
source filter rejects against the frozen seen set, then `k` more stagnant
rounds (where `staleRounds + k` reaches the stagnation limit) end the loop
with the accepted list untouched and exactly `k` further requests issued. -/
lemma genLoop_stagnates (P : GenParams) (env : GenEnv) :
    ∀ (k fuel round : Nat) (s : LoopState),
      s.staleRounds + k = P.stagnationLimit → 1 ≤ k → k ≤ fuel →
      s.result.length < P.targetSize →
      (∀ r, round ≤ r → ∀ fo, ∀ c ∈ candidatesOf (env.fetch r fo),
          survivesSourceFilter P s.seen c = false) →
      ∃ s1, genLoopAux P env fuel round s = Except.ok s1
        ∧ s1.result = s.result ∧ s1.seen = s.seen ∧ s1.roundSeeds = s.roundSeeds
        ∧ s1.staleRounds = P.stagnationLimit
        ∧ s1.reqTrace = s.reqTrace ++ List.replicate k s.roundSeeds := by
  intro k
  induction k with
  | zero => intro fuel round s _ h1 _ _ _; omega
  | succ j ih =>
    intro fuel round s hsum _ hfuel hlt hstag
    obtain ⟨fuel, rfl⟩ : ∃ f, fuel = f + 1 := ⟨fuel - 1, by omega⟩
    obtain ⟨w, sf, hrr⟩ := runRound_stagnant P env round s (hstag round (le_refl round) _)
    simp only [genLoopAux]
    rw [if_pos hlt, hrr]
    by_cases hbrk : P.stagnationLimit ≤ s.staleRounds + 1
    · have hj : j = 0 := by omega
      rw [decide_eq_true hbrk]
      dsimp only []
      refine ⟨_, rfl, rfl, rfl, rfl,
        show s.staleRounds + 1 = P.stagnationLimit by omega, ?_⟩
      rw [hj]
      rfl
    · have hj : 1 ≤ j := by omega
      rw [decide_eq_false hbrk]
      dsimp only []
      obtain ⟨s1, hloop, r1, r2, r3, r4, r5⟩ :=
        ih fuel (round + 1)
          { s with
            warnings := w
            sfStats := sf
            reqTrace := s.reqTrace ++ [s.roundSeeds]
            staleRounds := s.staleRounds + 1 }
          (show s.staleRounds + 1 + j = P.stagnationLimit by omega) hj (by omega)
          (show s.result.length < P.targetSize from hlt)
          (by
            intro r hr fo c hc
            exact hstag r (by omega) fo c hc)
      refine ⟨s1, hloop, r1, r2, r3, r4, ?_⟩
      rw [r5]
      dsimp only []
      rw [List.append_assoc]
      rfl

/-- C6: once every request yields only candidates rejected against the
frozen seen set (already-accepted URIs or filter failures), the loop stops
after exactly `stagnationLimit` consecutive zero-growth rounds — the request
trace grows by exactly `stagnationLimit` — with the accepted list untouched,
even though rounds remain (`stagnationLimit ≤ fuel`) and the target is not
reached.  And every successful run reports `shortfall` exactly
`targetSize - accepted`, as a warning in `warnings` (the run returns
`Except.ok`, not an error). -/
theorem claim_C6_stagnation_stop :
    (∀ (P : GenParams) (env : GenEnv) (fuel round : Nat) (s : LoopState),
        s.staleRounds = 0 → 1 ≤ P.stagnationLimit → P.stagnationLimit ≤ fuel →
        s.result.length < P.targetSize →
        (∀ r, round ≤ r → ∀ fo, ∀ c ∈ candidatesOf (env.fetch r fo),
            survivesSourceFilter P s.seen c = false) →
        ∃ s1, genLoopAux P env fuel round s = Except.ok s1
          ∧ s1.result = s.result
          ∧ s1.staleRounds = P.stagnationLimit
          ∧ s1.reqTrace = s.reqTrace ++ List.replicate P.stagnationLimit s.roundSeeds)
    ∧ (∀ (o : GenerateOpts) (env : GenEnv) (res : GenerateResult),
        generateTrackPool o env = Except.ok res →
        res.generatedCount = res.trackUris.length
        ∧ res.shortfall = (mkGenParams o).targetSize - res.trackUris.length
        ∧ (0 < res.shortfall →
            ("Generated " ++ toString res.trackUris.length ++ "/"
              ++ toString (mkGenParams o).targetSize
              ++ " tracks; Spotify recommendations exhausted.") ∈ res.warnings)) := by
  constructor
  · intro P env fuel round s h0 hsl hfuel hlt hstag
    obtain ⟨s1, hloop, r1, r2, r3, r4, r5⟩ :=
      genLoop_stagnates P env P.stagnationLimit fuel round s (by omega) hsl hfuel hlt hstag
    exact ⟨s1, hloop, r1, r4, r5⟩
  · intro o env res h
    unfold generateTrackPool at h
    cases hs : generateTrackPoolState o env with
    | error e => rw [hs] at h; simp at h
    | ok s =>
      rw [hs] at h
      dsimp only [] at h
      injection h with h'
      subst h'
      refine ⟨rfl, rfl, ?_⟩
      intro hpos
      have hpos' : 0 < (mkGenParams o).targetSize - s.result.length := hpos
      apply List.mem_append_left
      apply List.mem_append_left
      apply List.mem_append_left
      apply List.mem_append_left
      apply List.mem_append_left
      apply List.mem_append_left
      apply List.mem_append_left
      apply List.mem_append_left
      apply List.mem_append_right
      rw [if_pos hpos']
      exact List.mem_singleton.mpr rfl

/-- Witness for C6 at a concrete input: an environment whose fetcher always
returns an empty response stops after two (the default limit) stagnant
rounds. -/
theorem claim_C6_witness :
    ∃ s1, genLoopAux
        { uniqueSeeds := ["a", "b", "c"]
          targetSize := 6
          minPopularity := 30
          maxDurationMs := 240000
          exclude := []
          market := none
          filterMarket := none
          keyCap := 2
          maxRounds := 8
          stagnationLimit := 2
          seedProfileEnabled := false
          timeoutMs := 0
          account := none }
        { resolveSeedProfile := { used := false, query := [], warnings := [] }
          seedFeatures := Except.ok fun _ => none
          featuresAt := fun _ => Except.ok fun _ => none
          fetch := fun _ _ => {} } 8 0
        { result := ["a", "b", "c"]
          seen := ["a", "b", "c"]
          keyCounts := []
          keyByUri := []
          disableKeyDiversity := true
          kdStats := { enabled := false, key_cap := 2 }
          sfStats := {}
          spUsed := false
          spQuery := []
          roundSeeds := ["a", "b", "c"]
          staleRounds := 0
          warnings := []
          reqTrace := [] } = Except.ok s1
      ∧ s1.result = ["a", "b", "c"]
      ∧ s1.staleRounds = 2
      ∧ s1.reqTrace = [["a", "b", "c"], ["a", "b", "c"]] := by
  obtain ⟨s1, h1, h2, h3, h4⟩ := claim_C6_stagnation_stop.1
    { uniqueSeeds := ["a", "b", "c"]
      targetSize := 6
      minPopularity := 30
      maxDurationMs := 240000
      exclude := []
      market := none
      filterMarket := none
      keyCap := 2
      maxRounds := 8
      stagnationLimit := 2
      seedProfileEnabled := false
      timeoutMs := 0
      account := none }
    { resolveSeedProfile := { used := false, query := [], warnings := [] }
      seedFeatures := Except.ok fun _ => none
      featuresAt := fun _ => Except.ok fun _ => none
      fetch := fun _ _ => {} } 8 0
    { result := ["a", "b", "c"]
      seen := ["a", "b", "c"]
      keyCounts := []
      keyByUri := []
      disableKeyDiversity := true
      kdStats := { enabled := false, key_cap := 2 }
      sfStats := {}
      spUsed := false
      spQuery := []
      roundSeeds := ["a", "b", "c"]
      staleRounds := 0
      warnings := []
      reqTrace := [] }
    rfl (by decide) (by decide) (by decide)
    (fun r hr fo c hc => by simp [candidatesOf] at hc)
  exact ⟨s1, h1, h2, h3, by rw [h4]; rfl⟩

/-! ### Claim C7: validation -/

/-- The claim's list of invalid-parameter conditions, stated independently
of the validation code. -/
def GenParamsInvalid (o : GenerateOpts) : Prop :=
  ¬ (o.targetSize.den = 1 ∧ 1 ≤ o.targetSize ∧ o.targetSize ≤ 100)
  ∨ ¬ (o.minPopularity.den = 1 ∧ 0 ≤ o.minPopularity ∧ o.minPopularity ≤ 100)
  ∨ ¬ (o.maxDurationMs.den = 1 ∧ 0 < o.maxDurationMs)
  ∨ ¬ ((o.maxKeySharePercent.getD 25).den = 1 ∧ 1 ≤ o.maxKeySharePercent.getD 25
        ∧ o.maxKeySharePercent.getD 25 ≤ 100)
  ∨ o.seedTrackUris.length < 3 ∨ 5 < o.seedTrackUris.length
  ∨ (uniqueOrdered o.seedTrackUris).length < 3

/-- C7: `generateTrackPool` raises a usage error exactly when its parameters
are invalid in the claim's sense — and it does so independently of the
environment (for all `env`), i.e. before any network interaction.
Additionally (manage-generate.ts), customizing `--max-key-share` away from
its default 25 while key diversity is disabled is a usage error, and only
then. -/
theorem claim_C7_validation (o : GenerateOpts) :
    ((validateGenerate o).isSome ↔ GenParamsInvalid o)
    ∧ (∀ e, validateGenerate o = some e →
        e.code = "INVALID_USAGE" ∧ ∀ env, generateTrackPool o env = Except.error e)
    ∧ (∀ (dk : Option Bool) (m : Option ℚ),
        (manageGenerateKeyShareCheck dk m).isSome ↔
          (dk.getD true = false ∧ m.getD 25 ≠ 25)) := by
  refine ⟨⟨?_, ?_⟩, ?_, ?_⟩
  · intro hsome
    unfold validateGenerate at hsome
    split_ifs at hsome with h1 h2 h3 h4 h5 h6
    · refine Or.inl ?_
      rintro ⟨ha, hb, hc⟩
      rcases h1 with h | h | h
      exacts [h ha, absurd hb (not_le.mpr h), absurd hc (not_le.mpr h)]
    · refine Or.inr (Or.inl ?_)
      rintro ⟨ha, hb, hc⟩
      rcases h2 with h | h | h
      exacts [h ha, absurd hb (not_le.mpr h), absurd hc (not_le.mpr h)]
    · refine Or.inr (Or.inr (Or.inl ?_))
      rintro ⟨ha, hb⟩
      rcases h3 with h | h
      exacts [h ha, absurd hb (not_lt.mpr h)]
    · refine Or.inr (Or.inr (Or.inr (Or.inl ?_)))
      rintro ⟨ha, hb, hc⟩
      rcases h4 with h | h | h
      exacts [h ha, absurd hb (not_le.mpr h), absurd hc (not_le.mpr h)]
    · rcases h5 with h | h
      · exact Or.inr (Or.inr (Or.inr (Or.inr (Or.inl h))))
      · exact Or.inr (Or.inr (Or.inr (Or.inr (Or.inr (Or.inl h)))))
    · exact Or.inr (Or.inr (Or.inr (Or.inr (Or.inr (Or.inr h6)))))
    · simp at hsome
  · intro hinv
    unfold validateGenerate
    split_ifs with h1 h2 h3 h4 h5 h6
    · simp
    · simp
    · simp
    · simp
    · simp
    · simp
    · exfalso
      unfold GenParamsInvalid at hinv
      push_neg at h1 h2 h3 h4 h5 h6
      rcases hinv with h | h | h | h | h | h | h
      · exact h h1
      · exact h h2
      · exact h h3
      · exact h h4
      · omega
      · omega
      · omega
  · intro e he
    constructor
    · unfold validateGenerate at he
      split_ifs at he <;>
        first
          | (exact Option.noConfusion he)
          | (injection he with h'; subst h'; rfl)
    · intro env
      simp [generateTrackPool, generateTrackPoolState, he]
  · intro dk m
    unfold manageGenerateKeyShareCheck
    dsimp only []
    split_ifs with hcond
    · exact iff_of_true (by simp) hcond
    · exact iff_of_false (by simp) hcond

/-- Witness for C7 at a concrete input: target size 0 fails fast with the
same usage error for every environment. -/
theorem claim_C7_witness :
    generateTrackPool
      { seedTrackUris := ["a", "b", "c"], targetSize := 0, minPopularity := 30,
        maxDurationMs := 240000 }
      { resolveSeedProfile := { used := false, query := [], warnings := [] }
        seedFeatures := Except.ok fun _ => none
        featuresAt := fun _ => Except.ok fun _ => none
        fetch := fun _ _ => {} }
      = Except.error
          { code := "INVALID_USAGE"
            message := "--target-size must be an integer between 1 and 100." } :=
  ((claim_C7_validation
      { seedTrackUris := ["a", "b", "c"], targetSize := 0, minPopularity := 30,
        maxDurationMs := 240000 }).2.1 _ (by decide)).2 _

end SpotifyCli
